import Mathlib

/-!
Verification of the flag-qubit QEC Pauli-frame simulator
(`flag_qec_stabilizer/qec_flag_stabilizer_base.py` and
`flag_qec_stabilizer/five_qubit_code_flag_protocol_stabilizer.py`).

The Python code is shallowly embedded as executable Lean functions:

* the Pauli accumulator (a numpy 0/1 vector of length `2 * num_all_qubits`)
  becomes a `List Bool`;
* the global numpy random source becomes an explicit stream `ℕ → ℚ` of
  uniform draws together with a cursor `pos` stored in the circuit state
  (each call of `np.random.uniform()` reads the stream at the cursor and
  advances it);
* probabilities and scale factors become rationals;
* Python `assert` failures and uncaught exceptions become `Except` errors at
  the protocol level (the `assert False` branches inside the depolarizing
  samplers are unreachable, because the chained guards are exhaustive over a
  linear order, and are embedded as identity fallthroughs);
* the two-level syndrome lookup tables (Python dicts keyed by
  `np.array2string` canonicalizations of the records) become association
  lists keyed by the structured records themselves; `np.array2string` is
  injective on the record shapes that occur, so dict membership and lookup
  coincide with association-list membership and lookup.
-/

-- Rational arithmetic must reduce inside the kernel so that concrete
-- protocol runs can be settled by `decide`; `Rat.mul` and `Rat.inv` are
-- shipped `irreducible`, which blocks only the unfolder, not soundness.
set_option allowUnsafeReducibility true in
attribute [semireducible] Rat.mul Rat.inv

/-- Enum `error_model_enum` from the source. -/
inductive ErrorModel where
  | ONE_STOCHASTIC_PAULI_ERROR
  | CODE_CAPACITY_NOISE
  | CHAO_CKT_LVL_NOISE_WITHOUT_IDLING
deriving DecidableEq, Repr

/-- Static configuration of `qec_flag_base_ckt_class`: qubit counts and the
error scale factors chosen in the `qec_flag_stabilizer_base` constructor from
the error model (idling is unused by the embedded code paths). -/
structure CktCfg where
  numData : ℕ
  numAnc : ℕ
  numFlag : ℕ
  sTwo : ℚ
  sSingle : ℚ
  sPrep : ℚ
  sMeas : ℚ
  errorModel : ErrorModel
deriving DecidableEq

/-- `num_all_qubits = num_data_qubits + num_anc_qubits + num_flag_qubits`. -/
def CktCfg.numAll (cfg : CktCfg) : ℕ := cfg.numData + cfg.numAnc + cfg.numFlag

/-- The scale factors of the `CHAO_CKT_LVL_NOISE_WITHOUT_IDLING` error model
(lines 559-565 of the base class), at the five-qubit code's qubit counts. -/
def fiveQubitChaoCfg : CktCfg :=
  { numData := 5, numAnc := 1, numFlag := 1,
    sTwo := 1, sSingle := 0, sPrep := 4/15, sMeas := 4/15,
    errorModel := .CHAO_CKT_LVL_NOISE_WITHOUT_IDLING }

/-- The mutable state of `qec_flag_base_ckt_class`: the binary symplectic
Pauli accumulator, plus the cursor into the random stream. -/
structure CktState where
  acc : List Bool
  pos : ℕ
deriving DecidableEq

/-- The random source: an infinite sequence of uniform draws. -/
abbrev RandStream := ℕ → ℚ

/-- Draws of `np.random.uniform()` lie in `[0, 1)`. -/
def validStream (r : RandStream) : Prop := ∀ i, 0 ≤ r i ∧ r i < 1

/-- One call of `np.random.uniform()`: read the stream, advance the cursor. -/
def draw (r : RandStream) (st : CktState) : ℚ × CktState :=
  (r st.pos, { st with pos := st.pos + 1 })

/-- XOR of the accumulator with a one-hot error string at index `i`
(out-of-range indices leave the list unchanged, matching valid numpy use). -/
def xorAt (acc : List Bool) (i : ℕ) : List Bool :=
  acc.set i (!(acc.getD i false))

/-- `single_qubit_X_error`: with probability `pe` XOR an X error string. -/
def single_qubit_X_error (cfg : CktCfg) (r : RandStream) (q : ℕ) (pe : ℚ)
    (st : CktState) : CktState :=
  let u := (draw r st).1
  let st := (draw r st).2
  if u < pe then { st with acc := xorAt st.acc q } else st

/-- `single_qubit_Z_error`: with probability `pe` XOR a Z error string. -/
def single_qubit_Z_error (cfg : CktCfg) (r : RandStream) (q : ℕ) (pe : ℚ)
    (st : CktState) : CktState :=
  let u := (draw r st).1
  let st := (draw r st).2
  if u < pe then { st with acc := xorAt st.acc (q + cfg.numAll) } else st

/-- `single_qubit_pauli_error`: deterministically XOR the error string of
Pauli `pidx` (1 = X, 2 = Y, 3 = Z, anything else = identity) on qubit `q`. -/
def single_qubit_pauli_error (cfg : CktCfg) (pidx q : ℕ)
    (acc : List Bool) : List Bool :=
  if pidx = 1 then xorAt acc q
  else if pidx = 2 then xorAt (xorAt acc q) (q + cfg.numAll)
  else if pidx = 3 then xorAt acc (q + cfg.numAll)
  else acc

/-- `single_qubit_depol_error`: with probability `pe` draw `dec` and inject
X, Y or Z with probability 1/3 each (the source's final `assert False` branch
is unreachable: the three guards are exhaustive). -/
def single_qubit_depol_error (cfg : CktCfg) (r : RandStream) (q : ℕ) (pe : ℚ)
    (st : CktState) : CktState :=
  let u := (draw r st).1
  let st := (draw r st).2
  if u < pe then
    let dec := (draw r st).1
    let st := (draw r st).2
    if dec < 1/3 then { st with acc := single_qubit_pauli_error cfg 1 q st.acc }
    else if 1/3 ≤ dec ∧ dec < 2/3 then
      { st with acc := single_qubit_pauli_error cfg 2 q st.acc }
    else if 2/3 ≤ dec then
      { st with acc := single_qubit_pauli_error cfg 3 q st.acc }
    else st
  else st

/-- `two_qubit_pauli_error`: deterministically XOR the error strings of the
two specified Paulis on the two specified qubits, in order. -/
def two_qubit_pauli_error (cfg : CktCfg) (p1 p2 q1 q2 : ℕ)
    (acc : List Bool) : List Bool :=
  single_qubit_pauli_error cfg p2 q2 (single_qubit_pauli_error cfg p1 q1 acc)

/-- The Pauli pair injected by `two_qubit_gate_depol_error` as a function of
the decision draw: the 15 non-identity pairs, uniformly on intervals of
width 1/15 (again the final `assert False` is unreachable). -/
def depolPairOf (dec : ℚ) : ℕ × ℕ :=
  if dec < 1/15 then (0, 1)
  else if 1/15 ≤ dec ∧ dec < 2/15 then (0, 2)
  else if 2/15 ≤ dec ∧ dec < 3/15 then (0, 3)
  else if 3/15 ≤ dec ∧ dec < 4/15 then (1, 0)
  else if 4/15 ≤ dec ∧ dec < 5/15 then (1, 1)
  else if 5/15 ≤ dec ∧ dec < 6/15 then (1, 2)
  else if 6/15 ≤ dec ∧ dec < 7/15 then (1, 3)
  else if 7/15 ≤ dec ∧ dec < 8/15 then (2, 0)
  else if 8/15 ≤ dec ∧ dec < 9/15 then (2, 1)
  else if 9/15 ≤ dec ∧ dec < 10/15 then (2, 2)
  else if 10/15 ≤ dec ∧ dec < 11/15 then (2, 3)
  else if 11/15 ≤ dec ∧ dec < 12/15 then (3, 0)
  else if 12/15 ≤ dec ∧ dec < 13/15 then (3, 1)
  else if 13/15 ≤ dec ∧ dec < 14/15 then (3, 2)
  else (3, 3)

/-- `two_qubit_gate_depol_error`: with probability `pe` draw `dec` and
inject the corresponding non-identity Pauli pair. -/
def two_qubit_gate_depol_error (cfg : CktCfg) (r : RandStream) (q1 q2 : ℕ)
    (pe : ℚ) (st : CktState) : CktState :=
  let u := (draw r st).1
  let st := (draw r st).2
  if u < pe then
    let dec := (draw r st).1
    let st := (draw r st).2
    let pair := depolPairOf dec
    { st with acc := two_qubit_pauli_error cfg pair.1 pair.2 q1 q2 st.acc }
  else st

/-- The `error_spec` helper class: a directed error override for tests.
`error_loc` defaults to Python `None`, embedded as an `Option`. -/
structure ErrorSpec where
  inject_error : Bool
  error_loc : Option ℕ
  qubit_idx1 : ℕ
  qubit_idx2 : ℕ
  pauli_idx1 : ℕ
  pauli_idx2 : ℕ
deriving DecidableEq

/-- `two_qubit_gate_error`: if a `test_config` is supplied, inject exactly
the specified Pauli pair when the location matches (no randomness consumed),
otherwise the depolarizing error. -/
def two_qubit_gate_error (cfg : CktCfg) (r : RandStream)
    (test_config : Option ErrorSpec) (error_loc : ℕ) (q1 q2 : ℕ) (pe : ℚ)
    (st : CktState) : CktState :=
  match test_config with
  | some tc =>
      if tc.inject_error ∧ tc.error_loc = some error_loc then
        { st with acc := two_qubit_pauli_error cfg tc.pauli_idx1 tc.pauli_idx2
                           tc.qubit_idx1 tc.qubit_idx2 st.acc }
      else st
  | none => two_qubit_gate_depol_error cfg r q1 q2 pe st

/-- Clear the two symplectic bits of qubit `q`. -/
def clearQubit (cfg : CktCfg) (q : ℕ) (acc : List Bool) : List Bool :=
  (acc.set q false).set (q + cfg.numAll) false

/-- `prepare_Z_basis`: clear the qubit's bits, then a probabilistic X error
at rate `error_scale_factor_prep * p_err`. -/
def prepare_Z_basis (cfg : CktCfg) (r : RandStream) (q : ℕ) (pe : ℚ)
    (st : CktState) : CktState :=
  single_qubit_X_error cfg r q (cfg.sPrep * pe)
    { st with acc := clearQubit cfg q st.acc }

/-- `prepare_X_basis`: clear the qubit's bits, then a probabilistic Z error
at rate `error_scale_factor_prep * p_err`. -/
def prepare_X_basis (cfg : CktCfg) (r : RandStream) (q : ℕ) (pe : ℚ)
    (st : CktState) : CktState :=
  single_qubit_Z_error cfg r q (cfg.sPrep * pe)
    { st with acc := clearQubit cfg q st.acc }

/-- Body of the `reset_ancilla` loop for ancilla number `i`. -/
def reset_one_ancilla (cfg : CktCfg) (r : RandStream) (pe : ℚ) (i : ℕ)
    (st : CktState) : CktState :=
  single_qubit_X_error cfg r (cfg.numData + i) (cfg.sPrep * pe)
    { st with acc := clearQubit cfg (cfg.numData + i) st.acc }

/-- `reset_ancilla`: clear and re-prepare every ancilla qubit. -/
def reset_ancilla (cfg : CktCfg) (r : RandStream) (pe : ℚ)
    (st : CktState) : CktState :=
  (List.range cfg.numAnc).foldl (fun s i => reset_one_ancilla cfg r pe i s) st

/-- Body of the `reset_flag` loop for flag number `i`. -/
def reset_one_flag (cfg : CktCfg) (r : RandStream) (pe : ℚ) (i : ℕ)
    (st : CktState) : CktState :=
  single_qubit_Z_error cfg r (cfg.numData + cfg.numAnc + i) (cfg.sPrep * pe)
    { st with acc := clearQubit cfg (cfg.numData + cfg.numAnc + i) st.acc }

/-- `reset_flag`: clear and re-prepare (to the plus state) every flag qubit. -/
def reset_flag (cfg : CktCfg) (r : RandStream) (pe : ℚ)
    (st : CktState) : CktState :=
  (List.range cfg.numFlag).foldl (fun s i => reset_one_flag cfg r pe i s) st

/-- The Hadamard gate `h`: swap the X and Z bits of the qubit, then a
single-qubit depolarizing error (the `test_config` and `error_loc` arguments
are accepted and ignored, as in the source). -/
def h (cfg : CktCfg) (r : RandStream) (q : ℕ) (pe : ℚ)
    (test_config : Option ErrorSpec) (error_loc : ℕ)
    (st : CktState) : CktState :=
  let a := st.acc.getD q false
  let b := st.acc.getD (q + cfg.numAll) false
  let st := { st with acc := (st.acc.set q b).set (q + cfg.numAll) a }
  single_qubit_depol_error cfg r q (cfg.sSingle * pe) st

/-- `cnot`: X on control propagates to the target, Z on target propagates to
the control (both read from the pre-gate accumulator), then a two-qubit gate
error.  The source passes `None` as `test_config` to `two_qubit_gate_error`
("Not using test_config functionality for now"). -/
def cnot (cfg : CktCfg) (r : RandStream) (control target : ℕ) (pe : ℚ)
    (test_config : Option ErrorSpec) (error_loc : ℕ)
    (st : CktState) : CktState :=
  let cX := st.acc.getD control false
  let tZ := st.acc.getD (target + cfg.numAll) false
  let a1 := if cX then xorAt st.acc target else st.acc
  let a2 := if tZ then xorAt a1 (control + cfg.numAll) else a1
  two_qubit_gate_error cfg r none error_loc control target (cfg.sTwo * pe)
    { st with acc := a2 }

/-- `xnot`: a Z on either qubit propagates to an X on the other (reads from
the pre-gate accumulator), then a two-qubit gate error with `None` as
`test_config`. -/
def xnot (cfg : CktCfg) (r : RandStream) (q1 q2 : ℕ) (pe : ℚ)
    (test_config : Option ErrorSpec) (error_loc : ℕ)
    (st : CktState) : CktState :=
  let z1 := st.acc.getD (q1 + cfg.numAll) false
  let z2 := st.acc.getD (q2 + cfg.numAll) false
  let a1 := if z1 then xorAt st.acc q2 else st.acc
  let a2 := if z2 then xorAt a1 q1 else a1
  two_qubit_gate_error cfg r none error_loc q1 q2 (cfg.sTwo * pe)
    { st with acc := a2 }

/-- `ynot`: Z on the oplus end propagates to a Y on the y end; X or Z on the
y end propagates to an X on the oplus end; then a two-qubit gate error with
`None` as `test_config`. -/
def ynot (cfg : CktCfg) (r : RandStream) (oplus y : ℕ) (pe : ℚ)
    (test_config : Option ErrorSpec) (error_loc : ℕ)
    (st : CktState) : CktState :=
  let zO := st.acc.getD (oplus + cfg.numAll) false
  let xY := st.acc.getD y false
  let zY := st.acc.getD (y + cfg.numAll) false
  let a1 := if zO then xorAt (xorAt st.acc y) (y + cfg.numAll) else st.acc
  let a2 := if xY then xorAt a1 oplus else a1
  let a3 := if zY then xorAt a2 oplus else a2
  two_qubit_gate_error cfg r none error_loc oplus y (cfg.sTwo * pe)
    { st with acc := a3 }

/-- `cz`: an X on either qubit propagates to a Z on the other (reads from
the pre-gate accumulator), then a two-qubit gate error with `None` as
`test_config`. -/
def cz (cfg : CktCfg) (r : RandStream) (q1 q2 : ℕ) (pe : ℚ)
    (test_config : Option ErrorSpec) (error_loc : ℕ)
    (st : CktState) : CktState :=
  let x1 := st.acc.getD q1 false
  let x2 := st.acc.getD q2 false
  let a1 := if x1 then xorAt st.acc (q2 + cfg.numAll) else st.acc
  let a2 := if x2 then xorAt a1 (q1 + cfg.numAll) else a1
  two_qubit_gate_error cfg r none error_loc q1 q2 (cfg.sTwo * pe)
    { st with acc := a2 }

/-- `measure_Z_basis`: the outcome is the qubit's X bit, flipped with
probability `error_scale_factor_meas * p_err`; the accumulator itself is not
modified. -/
def measure_Z_basis (cfg : CktCfg) (r : RandStream) (q : ℕ) (pe : ℚ)
    (st : CktState) : Bool × CktState :=
  let m := st.acc.getD q false
  let u := (draw r st).1
  let st := (draw r st).2
  (if u < cfg.sMeas * pe then !m else m, st)

/-- `measure_X_basis`: the outcome is the qubit's Z bit, flipped with
probability `error_scale_factor_meas * p_err`; the accumulator itself is not
modified. -/
def measure_X_basis (cfg : CktCfg) (r : RandStream) (q : ℕ) (pe : ℚ)
    (st : CktState) : Bool × CktState :=
  let m := st.acc.getD (q + cfg.numAll) false
  let u := (draw r st).1
  let st := (draw r st).2
  (if u < cfg.sMeas * pe then !m else m, st)

/-- Body of the `one_stochastic_pauli_error_data_qubits` loop for one data
qubit: with probability `pe`, inject X, Y or Z with probability 1/3 each. -/
def one_stochastic_qubit (cfg : CktCfg) (r : RandStream) (pe : ℚ) (q : ℕ)
    (st : CktState) : CktState :=
  let u := (draw r st).1
  let st := (draw r st).2
  if u < pe then
    let dec := (draw r st).1
    let st := (draw r st).2
    if dec < 1/3 then { st with acc := single_qubit_pauli_error cfg 1 q st.acc }
    else if 1/3 ≤ dec ∧ dec < 2/3 then
      { st with acc := single_qubit_pauli_error cfg 2 q st.acc }
    else if 2/3 ≤ dec then
      { st with acc := single_qubit_pauli_error cfg 3 q st.acc }
    else st
  else st

/-- `one_stochastic_pauli_error_data_qubits`: independent stochastic Pauli
errors on every data qubit (code-capacity style noise). -/
def one_stochastic_pauli_error_data_qubits (cfg : CktCfg) (r : RandStream)
    (pe : ℚ) (st : CktState) : CktState :=
  (List.range cfg.numData).foldl (fun s q => one_stochastic_qubit cfg r pe q s) st

/-- The all-zero accumulator of a freshly constructed circuit. -/
def zeroAcc (cfg : CktCfg) : List Bool := List.replicate (2 * cfg.numAll) false

/-- Enum `syn_ex_status` from the source. -/
inductive SynExStatus where
  | IDLE
  | MEAS_GEN_WITH_FLAG
  | MEAS_GEN_WITHOUT_FLAG
  | DET_RAISED_FLAG
  | DET_NONZERO_SYNDROME
  | DET_UNRAISED_FLAG_AND_ZERO_SYNDROME
deriving DecidableEq, Repr

/-- Failures of the protocol layer: the two entry-state `assert`s, the
(unreachable) `assert False, "Invalid syndrome_ex_status"` branches, and the
`AttributeError` raised by line 607's call of the nonexistent method
`self.two_qubit_pauli_error` on the protocol object. -/
inductive ProtoErr where
  | statusNotIdle
  | statusNotMeasWithoutFlag
  | invalidStatus
  | attributeError
deriving DecidableEq, Repr

deriving instance DecidableEq for Except

/-- Protocol-level state of `qec_flag_stabilizer_base`: the circuit, the
extraction status, `current_syndrome_n_flag` (a syndrome bit with an optional
flag bit), the 1st-subround record (pairs, `none` = the `[None None]`
sentinel), the 2nd-subround record, and `logical_error_counts`. -/
structure ProtoState where
  ckt : CktState
  status : SynExStatus
  current : Option (Bool × Option Bool)
  rec1 : Option (List (Option (Bool × Bool)))
  rec2 : Option (List Bool)
  counts : List ℕ
deriving DecidableEq

/-- Index of the (single) ancilla qubit: `anc_qubits[0]`. -/
def ancQ (cfg : CktCfg) : ℕ := cfg.numData

/-- Index of the (single) flag qubit: `flag_qubits[0]`. -/
def flagQ (cfg : CktCfg) : ℕ := cfg.numData + cfg.numAnc

/-- `measure_ancilla_and_flag`: measure the ancilla in Z (and the flag in X
when `withFlag`), storing the outcome in `current_syndrome_n_flag`. -/
def measure_ancilla_and_flag (cfg : CktCfg) (r : RandStream) (withFlag : Bool)
    (pe : ℚ) (st : ProtoState) : ProtoState :=
  if withFlag then
    let m1 := measure_Z_basis cfg r (ancQ cfg) pe st.ckt
    let m2 := measure_X_basis cfg r (flagQ cfg) pe m1.2
    { st with ckt := m2.2, current := some (m1.1, some m2.1) }
  else
    let m1 := measure_Z_basis cfg r (ancQ cfg) pe st.ckt
    { st with ckt := m1.2, current := some (m1.1, none) }

/-- The `(syndrome, flag)` pair held by `current_syndrome_n_flag`; only
evaluated right after a with-flag measurement, where the flag component is
present (the `none` fallback is unreachable at every use site). -/
def currentPair (st : ProtoState) : Option (Bool × Bool) :=
  match st.current with
  | some (s, some f) => some (s, f)
  | _ => none

/-- The syndrome bit held by `current_syndrome_n_flag`; only evaluated right
after a measurement (the `false` fallback is unreachable at use sites). -/
def currentSynd (st : ProtoState) : Bool :=
  match st.current with
  | some (s, _) => s
  | none => false

/-- `update_syn_ex_status`: flag raised takes precedence over a nonzero
syndrome; both clear means the unraised-flag-and-zero-syndrome status.  Only
called right after a with-flag measurement. -/
def update_syn_ex_status (st : ProtoState) : ProtoState :=
  match st.current with
  | some (s, some f) =>
      { st with status :=
          if f then .DET_RAISED_FLAG
          else if s then .DET_NONZERO_SYNDROME
          else .DET_UNRAISED_FLAG_AND_ZERO_SYNDROME }
  | _ => st

/-- Gates of the 1st generator (XZZXI) with-flag circuit, locations 1-6. -/
def gen1_flag_circuit (cfg : CktCfg) (r : RandStream) (tc : Option ErrorSpec)
    (pe : ℚ) (c : CktState) : CktState :=
  let c := xnot cfg r 0 (ancQ cfg) pe tc 1 c
  let c := cnot cfg r (flagQ cfg) (ancQ cfg) pe tc 2 c
  let c := cnot cfg r 1 (ancQ cfg) pe tc 3 c
  let c := cnot cfg r 2 (ancQ cfg) pe tc 4 c
  let c := cnot cfg r (flagQ cfg) (ancQ cfg) pe tc 5 c
  xnot cfg r 3 (ancQ cfg) pe tc 6 c

/-- Gates of the 2nd generator (IXZZX) with-flag circuit, locations 7-12. -/
def gen2_flag_circuit (cfg : CktCfg) (r : RandStream) (tc : Option ErrorSpec)
    (pe : ℚ) (c : CktState) : CktState :=
  let c := xnot cfg r 1 (ancQ cfg) pe tc 7 c
  let c := cnot cfg r (flagQ cfg) (ancQ cfg) pe tc 8 c
  let c := cnot cfg r 2 (ancQ cfg) pe tc 9 c
  let c := cnot cfg r 3 (ancQ cfg) pe tc 10 c
  let c := cnot cfg r (flagQ cfg) (ancQ cfg) pe tc 11 c
  xnot cfg r 4 (ancQ cfg) pe tc 12 c

/-- Gates of the 3rd generator (XIXZZ) with-flag circuit, locations 13-18. -/
def gen3_flag_circuit (cfg : CktCfg) (r : RandStream) (tc : Option ErrorSpec)
    (pe : ℚ) (c : CktState) : CktState :=
  let c := xnot cfg r 0 (ancQ cfg) pe tc 13 c
  let c := cnot cfg r (flagQ cfg) (ancQ cfg) pe tc 14 c
  let c := xnot cfg r 2 (ancQ cfg) pe tc 15 c
  let c := cnot cfg r 3 (ancQ cfg) pe tc 16 c
  let c := cnot cfg r (flagQ cfg) (ancQ cfg) pe tc 17 c
  cnot cfg r 4 (ancQ cfg) pe tc 18 c

/-- Gates of the 4th generator (ZXIXZ) with-flag circuit, locations 19-24. -/
def gen4_flag_circuit (cfg : CktCfg) (r : RandStream) (tc : Option ErrorSpec)
    (pe : ℚ) (c : CktState) : CktState :=
  let c := cnot cfg r 0 (ancQ cfg) pe tc 19 c
  let c := cnot cfg r (flagQ cfg) (ancQ cfg) pe tc 20 c
  let c := xnot cfg r 1 (ancQ cfg) pe tc 21 c
  let c := xnot cfg r 3 (ancQ cfg) pe tc 22 c
  let c := cnot cfg r (flagQ cfg) (ancQ cfg) pe tc 23 c
  cnot cfg r 4 (ancQ cfg) pe tc 24 c

/-- The with-flag measurement of generator 1: the optional stochastic data
error (both non-circuit-level models), the flagged circuit, ancilla and flag
measurement, recording of the pair into the 1st-subround record, ancilla and
flag reset, and the status update. -/
def measure_gen1_with_flag (cfg : CktCfg) (r : RandStream)
    (tc : Option ErrorSpec) (pe : ℚ) (st : ProtoState) : ProtoState :=
  let st := { st with ckt :=
    if cfg.errorModel = ErrorModel.ONE_STOCHASTIC_PAULI_ERROR ∨
       cfg.errorModel = ErrorModel.CODE_CAPACITY_NOISE then
      one_stochastic_pauli_error_data_qubits cfg r pe st.ckt
    else st.ckt }
  let st := { st with ckt := gen1_flag_circuit cfg r tc pe st.ckt }
  let st := measure_ancilla_and_flag cfg r true pe st
  let st := { st with rec1 := some [currentPair st] }
  let st := { st with ckt := reset_flag cfg r pe (reset_ancilla cfg r pe st.ckt) }
  update_syn_ex_status st

/-- The with-flag measurement of generator 2 (stochastic data error only in
the code-capacity model; the pair is appended to the 1st-subround record). -/
def measure_gen2_with_flag (cfg : CktCfg) (r : RandStream)
    (tc : Option ErrorSpec) (pe : ℚ) (st : ProtoState) : ProtoState :=
  let st := { st with ckt :=
    if cfg.errorModel = ErrorModel.CODE_CAPACITY_NOISE then
      one_stochastic_pauli_error_data_qubits cfg r pe st.ckt
    else st.ckt }
  let st := { st with ckt := gen2_flag_circuit cfg r tc pe st.ckt }
  let st := measure_ancilla_and_flag cfg r true pe st
  let st := { st with rec1 := some (st.rec1.getD [] ++ [currentPair st]) }
  let st := { st with ckt := reset_flag cfg r pe (reset_ancilla cfg r pe st.ckt) }
  update_syn_ex_status st

/-- The with-flag measurement of generator 3. -/
def measure_gen3_with_flag (cfg : CktCfg) (r : RandStream)
    (tc : Option ErrorSpec) (pe : ℚ) (st : ProtoState) : ProtoState :=
  let st := { st with ckt :=
    if cfg.errorModel = ErrorModel.CODE_CAPACITY_NOISE then
      one_stochastic_pauli_error_data_qubits cfg r pe st.ckt
    else st.ckt }
  let st := { st with ckt := gen3_flag_circuit cfg r tc pe st.ckt }
  let st := measure_ancilla_and_flag cfg r true pe st
  let st := { st with rec1 := some (st.rec1.getD [] ++ [currentPair st]) }
  let st := { st with ckt := reset_flag cfg r pe (reset_ancilla cfg r pe st.ckt) }
  update_syn_ex_status st

/-- The with-flag measurement of generator 4. -/
def measure_gen4_with_flag (cfg : CktCfg) (r : RandStream)
    (tc : Option ErrorSpec) (pe : ℚ) (st : ProtoState) : ProtoState :=
  let st := { st with ckt :=
    if cfg.errorModel = ErrorModel.CODE_CAPACITY_NOISE then
      one_stochastic_pauli_error_data_qubits cfg r pe st.ckt
    else st.ckt }
  let st := { st with ckt := gen4_flag_circuit cfg r tc pe st.ckt }
  let st := measure_ancilla_and_flag cfg r true pe st
  let st := { st with rec1 := some (st.rec1.getD [] ++ [currentPair st]) }
  let st := { st with ckt := reset_flag cfg r pe (reset_ancilla cfg r pe st.ckt) }
  update_syn_ex_status st

/-- Generator 1 (XZZXI) measured without a flag, locations 100-103: the
syndrome bit starts the fresh 2nd-subround record. -/
def noflag_gen1 (cfg : CktCfg) (r : RandStream) (tc : Option ErrorSpec)
    (pe : ℚ) (st : ProtoState) : ProtoState :=
  let st := { st with ckt :=
    if cfg.errorModel = ErrorModel.CODE_CAPACITY_NOISE then
      one_stochastic_pauli_error_data_qubits cfg r pe st.ckt
    else st.ckt }
  let c := xnot cfg r 0 (ancQ cfg) pe tc 100 st.ckt
  let c := cnot cfg r 1 (ancQ cfg) pe tc 101 c
  let c := cnot cfg r 2 (ancQ cfg) pe tc 102 c
  let c := xnot cfg r 3 (ancQ cfg) pe tc 103 c
  let st := measure_ancilla_and_flag cfg r false pe { st with ckt := c }
  let st := { st with rec2 := some [currentSynd st] }
  { st with ckt := reset_ancilla cfg r pe st.ckt }

/-- Generator 2 (IXZZX) measured without a flag, locations 104-107. -/
def noflag_gen2 (cfg : CktCfg) (r : RandStream) (tc : Option ErrorSpec)
    (pe : ℚ) (st : ProtoState) : ProtoState :=
  let st := { st with ckt :=
    if cfg.errorModel = ErrorModel.CODE_CAPACITY_NOISE then
      one_stochastic_pauli_error_data_qubits cfg r pe st.ckt
    else st.ckt }
  let c := xnot cfg r 1 (ancQ cfg) pe tc 104 st.ckt
  let c := cnot cfg r 2 (ancQ cfg) pe tc 105 c
  let c := cnot cfg r 3 (ancQ cfg) pe tc 106 c
  let c := xnot cfg r 4 (ancQ cfg) pe tc 107 c
  let st := measure_ancilla_and_flag cfg r false pe { st with ckt := c }
  let st := { st with rec2 := some (st.rec2.getD [] ++ [currentSynd st]) }
  { st with ckt := reset_ancilla cfg r pe st.ckt }

/-- Generator 3 (XIXZZ) measured without a flag, locations 108-111. -/
def noflag_gen3 (cfg : CktCfg) (r : RandStream) (tc : Option ErrorSpec)
    (pe : ℚ) (st : ProtoState) : ProtoState :=
  let st := { st with ckt :=
    if cfg.errorModel = ErrorModel.CODE_CAPACITY_NOISE then
      one_stochastic_pauli_error_data_qubits cfg r pe st.ckt
    else st.ckt }
  let c := xnot cfg r 0 (ancQ cfg) pe tc 108 st.ckt
  let c := xnot cfg r 2 (ancQ cfg) pe tc 109 c
  let c := cnot cfg r 3 (ancQ cfg) pe tc 110 c
  let c := cnot cfg r 4 (ancQ cfg) pe tc 111 c
  let st := measure_ancilla_and_flag cfg r false pe { st with ckt := c }
  let st := { st with rec2 := some (st.rec2.getD [] ++ [currentSynd st]) }
  { st with ckt := reset_ancilla cfg r pe st.ckt }

/-- Generator 4 (ZXIXZ) measured without a flag, locations 112-115. -/
def noflag_gen4 (cfg : CktCfg) (r : RandStream) (tc : Option ErrorSpec)
    (pe : ℚ) (st : ProtoState) : ProtoState :=
  let st := { st with ckt :=
    if cfg.errorModel = ErrorModel.CODE_CAPACITY_NOISE then
      one_stochastic_pauli_error_data_qubits cfg r pe st.ckt
    else st.ckt }
  let c := cnot cfg r 0 (ancQ cfg) pe tc 112 st.ckt
  let c := xnot cfg r 1 (ancQ cfg) pe tc 113 c
  let c := xnot cfg r 3 (ancQ cfg) pe tc 114 c
  let c := cnot cfg r 4 (ancQ cfg) pe tc 115 c
  let st := measure_ancilla_and_flag cfg r false pe { st with ckt := c }
  let st := { st with rec2 := some (st.rec2.getD [] ++ [currentSynd st]) }
  { st with ckt := reset_ancilla cfg r pe st.ckt }

/-- `measure_full_syndrome_without_flags`: asserts the status is
`MEAS_GEN_WITHOUT_FLAG`, then measures all four generators with unflagged
circuits, building the 4-bit 2nd-subround record. -/
def measure_full_syndrome_without_flags (cfg : CktCfg) (r : RandStream)
    (tc : Option ErrorSpec) (pe : ℚ) (st : ProtoState) :
    Except ProtoErr ProtoState :=
  if st.status = .MEAS_GEN_WITHOUT_FLAG then
    .ok (noflag_gen4 cfg r tc pe (noflag_gen3 cfg r tc pe
          (noflag_gen2 cfg r tc pe (noflag_gen1 cfg r tc pe st))))
  else .error .statusNotMeasWithoutFlag

/-- The decision taken after each with-flag generator measurement: on a
raised flag or nonzero syndrome, pad the 1st-subround record with
`sentinels` sentinel pairs, remeasure everything without flags, and finish
with status `IDLE`; on a clear measurement continue with the next generator
(at the last decision `sentinels = 0` and the padding is the identity on the
record, which is always present there). -/
def decide_after_gen (cfg : CktCfg) (r : RandStream) (tc : Option ErrorSpec)
    (pe : ℚ) (sentinels : ℕ) (cont : ProtoState → Except ProtoErr ProtoState)
    (st : ProtoState) : Except ProtoErr ProtoState :=
  if st.status = .DET_RAISED_FLAG ∨ st.status = .DET_NONZERO_SYNDROME then
    match measure_full_syndrome_without_flags cfg r tc pe
        { st with rec1 := some (st.rec1.getD [] ++ List.replicate sentinels none),
                  status := .MEAS_GEN_WITHOUT_FLAG } with
    | .ok st2 => .ok { st2 with status := .IDLE }
    | .error e => .error e
  else if st.status = .DET_UNRAISED_FLAG_AND_ZERO_SYNDROME then
    cont { st with status := .MEAS_GEN_WITH_FLAG }
  else .error .invalidStatus

/-- The decision after the 4th with-flag generator measurement: a raised
flag or nonzero syndrome triggers the full unflagged remeasurement (with no
record padding left to do), anything else finishes the round directly; both
exits set the status back to `IDLE`. -/
def final_decision (cfg : CktCfg) (r : RandStream) (tc : Option ErrorSpec)
    (pe : ℚ) (st : ProtoState) : Except ProtoErr ProtoState :=
  if st.status = .DET_RAISED_FLAG ∨ st.status = .DET_NONZERO_SYNDROME then
    match measure_full_syndrome_without_flags cfg r tc pe
        { st with status := .MEAS_GEN_WITHOUT_FLAG } with
    | .ok st2 => .ok { st2 with status := .IDLE }
    | .error e => .error e
  else .ok { st with status := .IDLE }

/-- Whether the `test_config` triggers the manual injection at location 0 at
the start of `syndrome_extraction` (line 606). -/
def tcTriggersLoc0 : Option ErrorSpec → Bool
  | some t => t.inject_error && (t.error_loc == some 0)
  | none => false

/-- The record-clearing entry step of `syndrome_extraction`: records and
current measurement cleared, status set to `MEAS_GEN_WITH_FLAG`. -/
def extraction_entry (st : ProtoState) : ProtoState :=
  { st with rec1 := none, rec2 := none, current := none,
            status := .MEAS_GEN_WITH_FLAG }

/-- `syndrome_extraction` of the five-qubit flag protocol: assert `IDLE`,
clear the records, then adaptively measure the generators with flags,
falling back to a full unflagged remeasurement after a raised flag or
nonzero syndrome.  The location-0 manual injection calls the nonexistent
method `self.two_qubit_pauli_error` on the protocol object, which raises an
`AttributeError` (embedded as `ProtoErr.attributeError`); the final
`np.array2string` canonicalizations are identities here because the records
are kept structured. -/
def syndrome_extraction (cfg : CktCfg) (r : RandStream)
    (tc : Option ErrorSpec) (pe : ℚ) (st : ProtoState) :
    Except ProtoErr ProtoState :=
  if st.status = .IDLE then
    let st := extraction_entry st
    if tcTriggersLoc0 tc then .error .attributeError
    else
      decide_after_gen cfg r tc pe 3 (fun s1 =>
        decide_after_gen cfg r tc pe 2 (fun s2 =>
          decide_after_gen cfg r tc pe 1 (fun s3 =>
            final_decision cfg r tc pe
              (measure_gen4_with_flag cfg r tc pe s3))
            (measure_gen3_with_flag cfg r tc pe s2))
          (measure_gen2_with_flag cfg r tc pe s1))
        (measure_gen1_with_flag cfg r tc pe st)
  else .error .statusNotIdle

/-- Keys of the outer lookup table: canonical 1st-subround records. -/
abbrev Rec1Key := List (Option (Bool × Bool))

/-- An inner lookup table: canonical 2nd-subround records mapped to
corrections (binary symplectic vectors over the data qubits only). -/
abbrev InnerLUT := List (List Bool × List Bool)

/-- A two-level syndrome lookup table. -/
abbrev SyndromeLUT := List (Rec1Key × InnerLUT)

/-- Association-list lookup (the embedding of Python dict membership and
subscripting; dict keys are unique, so first-match lookup agrees). -/
def lookupA {κ α : Type} [DecidableEq κ] (k : κ) : List (κ × α) → Option α
  | [] => none
  | (k2, v) :: rest => if k = k2 then some v else lookupA k rest

/-- The two-level lookup performed by `syndrome_decoding`: `record1` must be
a key of the outer table and `record2` a key of the corresponding inner
table, else the lookup misses (`None` records miss, as `None` is not a key
of any table). -/
def decoderLookup (tbl : SyndromeLUT) (rec1 : Option Rec1Key)
    (rec2 : Option (List Bool)) : Option (List Bool) :=
  match rec1 with
  | none => none
  | some k1 =>
      match lookupA k1 tbl with
      | none => none
      | some inner =>
          match rec2 with
          | none => none
          | some k2 => lookupA k2 inner

/-- Zero-extension of a correction over the ancilla and flag qubits:
`concatenate(correction[0:d], zeros, correction[d:2d], zeros)`. -/
def zeroExtendCorrection (cfg : CktCfg) (corr : List Bool) : List Bool :=
  corr.take cfg.numData
    ++ List.replicate (cfg.numAnc + cfg.numFlag) false
    ++ (corr.drop cfg.numData).take cfg.numData
    ++ List.replicate (cfg.numAnc + cfg.numFlag) false

/-- Componentwise XOR of two binary symplectic vectors
(`np.logical_xor`). -/
def xorVec (a b : List Bool) : List Bool := List.zipWith xor a b

/-- `syndrome_decoding`: if both levels of the lookup hit, apply the
zero-extended correction to the accumulator by symplectic XOR; otherwise do
nothing. -/
def syndrome_decoding (cfg : CktCfg) (tbl : SyndromeLUT)
    (st : ProtoState) : ProtoState :=
  match decoderLookup tbl st.rec1 st.rec2 with
  | some corr =>
      { st with ckt := { st.ckt with
          acc := xorVec st.ckt.acc (zeroExtendCorrection cfg corr) } }
  | none => st

/-- Numeric value of an accumulator bit (numpy stores 0/1 integers). -/
def b2n (b : Bool) : ℕ := if b then 1 else 0

/-- The data-qubit projection of the accumulator:
`concatenate(acc[0:d], acc[N:N+d])`, as the 0/1 integers used in the
commutation matrix product. -/
def pauliAccDataQubits (cfg : CktCfg) (acc : List Bool) : List ℕ :=
  (acc.take cfg.numData ++ (acc.drop cfg.numAll).take cfg.numData).map b2n

/-- The block matrix `L = [[0, I], [I, 0]]` of size `2d` (the standard
symplectic form). -/
def LBlock (cfg : CktCfg) : List (List ℕ) :=
  (List.range (2 * cfg.numData)).map (fun i =>
    (List.range (2 * cfg.numData)).map (fun j =>
      if i < cfg.numData then (if j = i + cfg.numData then 1 else 0)
      else (if j + cfg.numData = i then 1 else 0)))

/-- Integer dot product of two vectors. -/
def dotN (v w : List ℕ) : ℕ := (List.zipWith (· * ·) v w).sum

/-- Matrix-vector product over the integers. -/
def matVec (M : List (List ℕ)) (v : List ℕ) : List ℕ :=
  M.map (fun row => dotN row v)

/-- The commutation row vector
`(acc_data @ L @ logical_ops.T) % 2` computed by
`logical_error_tracking`: one entry per logical operator. -/
def commutationVector (cfg : CktCfg) (logical_ops : List (List ℕ))
    (acc : List Bool) : List ℕ :=
  logical_ops.map (fun op =>
    dotN (pauliAccDataQubits cfg acc) (matVec (LBlock cfg) op) % 2)

/-- `create_circuit`: discard the engine and construct a fresh one with an
all-zero accumulator (the global random source keeps its position). -/
def create_circuit (cfg : CktCfg) (st : ProtoState) : ProtoState :=
  { st with ckt := { acc := zeroAcc cfg, pos := st.ckt.pos } }

/-- The resynchronization cycle run inside `logical_error_tracking`: one
further syndrome extraction at `p_err = -1` followed by the table
decoding. -/
def resyncCycle (cfg : CktCfg) (r : RandStream) (tbl : SyndromeLUT)
    (st : ProtoState) : Except ProtoErr ProtoState :=
  (syndrome_extraction cfg r none (-1) st).map (syndrome_decoding cfg tbl)

/-- `logical_error_tracking`: save the accumulator, run the
resynchronization cycle, test the data-qubit projection against every
logical operator; on any anticommutation count a logical error for rate `j`
and rebuild a fresh circuit, else restore the saved accumulator. -/
def logical_error_tracking (cfg : CktCfg) (r : RandStream)
    (tbl : SyndromeLUT) (logical_ops : List (List ℕ)) (j : ℕ)
    (st : ProtoState) : Except ProtoErr ProtoState :=
  let saved := st.ckt.acc
  (resyncCycle cfg r tbl st).map (fun mid =>
    if (commutationVector cfg logical_ops mid.ckt.acc).any (fun c => c != 0) then
      create_circuit cfg
        { mid with counts := mid.counts.set j (mid.counts.getD j 0 + 1) }
    else
      { mid with ckt := { mid.ckt with acc := saved } })

/-- The per-worker batch size of `p_phys_sweep_simulation_mpi`:
`samples_per_point // num_cores`, plus one for the ranks strictly below
`samples_per_point % num_cores`. -/
def batchSize (samples_per_point num_cores my_rank : ℕ) : ℕ :=
  samples_per_point / num_cores +
    if my_rank < samples_per_point % num_cores then 1 else 0

/-- The dictionary each worker sends to rank 0, one per
`(rank, p_phys index)` pair. -/
structure WorkerResult where
  rank : ℕ
  p_phys : ℚ
  batch_size : ℕ
  logical_error_counts : ℕ
deriving DecidableEq

/-- Replace the value stored at the first occurrence of key `k`. -/
def updateA (l : List (ℚ × ℕ)) (k : ℚ) (v : ℕ) : List (ℚ × ℕ) :=
  match l with
  | [] => []
  | (k2, c) :: rest =>
      if k = k2 then (k2, v) :: rest else (k2, c) :: updateA rest k v

/-- One step of the coordinator's aggregation loop: add the record's
logical-error count to the entry for its rate, creating the entry when the
rate is seen for the first time. -/
def addResult (accum : List (ℚ × ℕ)) (rec : WorkerResult) : List (ℚ × ℕ) :=
  match lookupA rec.p_phys accum with
  | some c => updateA accum rec.p_phys (c + rec.logical_error_counts)
  | none => accum ++ [(rec.p_phys, rec.logical_error_counts)]

/-- The coordinator's per-rate aggregation over all received records
(`complete_results`, minus the `total_samples` entry). -/
def aggregateCounts (rs : List WorkerResult) : List (ℚ × ℕ) :=
  rs.foldl addResult []

/-- The coordinator's `total_samples`: the sum of all batch sizes. -/
def totalSamples (rs : List WorkerResult) : ℕ :=
  (rs.map (·.batch_size)).sum

/-- The operations of the Pauli-frame engine, as invoked by callers:
preparations, resets, gates, standalone fault injections, measurements. -/
inductive EngineOp where
  | prepZ (q : ℕ)
  | prepX (q : ℕ)
  | resetAnc
  | resetFlag
  | h (q : ℕ)
  | cnot (c t loc : ℕ)
  | xnot (a b loc : ℕ)
  | ynot (a b loc : ℕ)
  | cz (a b loc : ℕ)
  | measZ (q : ℕ)
  | measX (q : ℕ)
  | singleDepol (q : ℕ)
  | twoDepol (q1 q2 : ℕ)
deriving DecidableEq

/-- Run one engine operation at physical rate `p` (gates and preparations
apply their scale factors internally, exactly as the methods do; measurement
outcomes are returned by the methods and do not feed back into the state). -/
def runOp (cfg : CktCfg) (r : RandStream) (p : ℚ) (op : EngineOp)
    (st : CktState) : CktState :=
  match op with
  | .prepZ q => prepare_Z_basis cfg r q p st
  | .prepX q => prepare_X_basis cfg r q p st
  | .resetAnc => reset_ancilla cfg r p st
  | .resetFlag => reset_flag cfg r p st
  | .h q => h cfg r q p none 0 st
  | .cnot c t loc => cnot cfg r c t p none loc st
  | .xnot a b loc => xnot cfg r a b p none loc st
  | .ynot a b loc => ynot cfg r a b p none loc st
  | .cz a b loc => cz cfg r a b p none loc st
  | .measZ q => (measure_Z_basis cfg r q p st).2
  | .measX q => (measure_X_basis cfg r q p st).2
  | .singleDepol q => single_qubit_depol_error cfg r q p st
  | .twoDepol q1 q2 => two_qubit_gate_depol_error cfg r q1 q2 p st

/-- Run a sequence of engine operations at rate `p`. -/
def runOps (cfg : CktCfg) (r : RandStream) (p : ℚ) (ops : List EngineOp)
    (st : CktState) : CktState :=
  ops.foldl (fun s op => runOp cfg r p op s) st

/-- The fault-free semantics of each engine operation, following the
specification's words: preparations and resets clear the qubit's two bits,
gates apply only the deterministic Clifford propagation rule, measurements
and fault injections leave the accumulator untouched.  This is the reference
model against which the engine at nonpositive rates is compared. -/
def noiselessOp (cfg : CktCfg) (op : EngineOp) (acc : List Bool) : List Bool :=
  match op with
  | .prepZ q => clearQubit cfg q acc
  | .prepX q => clearQubit cfg q acc
  | .resetAnc =>
      (List.range cfg.numAnc).foldl
        (fun a i => clearQubit cfg (cfg.numData + i) a) acc
  | .resetFlag =>
      (List.range cfg.numFlag).foldl
        (fun a i => clearQubit cfg (cfg.numData + cfg.numAnc + i) a) acc
  | .h q =>
      (acc.set q (acc.getD (q + cfg.numAll) false)).set (q + cfg.numAll)
        (acc.getD q false)
  | .cnot c t _ =>
      let a1 := if acc.getD c false then xorAt acc t else acc
      if acc.getD (t + cfg.numAll) false then xorAt a1 (c + cfg.numAll) else a1
  | .xnot a b _ =>
      let a1 := if acc.getD (a + cfg.numAll) false then xorAt acc b else acc
      if acc.getD (b + cfg.numAll) false then xorAt a1 a else a1
  | .ynot o y _ =>
      let a1 := if acc.getD (o + cfg.numAll) false then
                  xorAt (xorAt acc y) (y + cfg.numAll) else acc
      let a2 := if acc.getD y false then xorAt a1 o else a1
      if acc.getD (y + cfg.numAll) false then xorAt a2 o else a2
  | .cz a b _ =>
      let a1 := if acc.getD a false then xorAt acc (b + cfg.numAll) else acc
      if acc.getD b false then xorAt a1 (a + cfg.numAll) else a1
  | .measZ _ => acc
  | .measX _ => acc
  | .singleDepol _ => acc
  | .twoDepol _ _ => acc

/-- The everywhere-zero draw stream (a valid uniform stream). -/
def constZeroStream : RandStream := fun _ => 0

/-- The everywhere-one-half draw stream (a valid uniform stream). -/
def constHalfStream : RandStream := fun _ => 1/2

theorem validStream_constZero : validStream constZeroStream :=
  fun _ => ⟨le_refl 0, by norm_num [constZeroStream]⟩

theorem validStream_constHalf : validStream constHalfStream :=
  fun _ => ⟨by norm_num [constHalfStream], by norm_num [constHalfStream]⟩

theorem not_fire {r : RandStream} (hr : validStream r) {pe : ℚ}
    (hpe : pe ≤ 0) (i : ℕ) : ¬ (r i < pe) :=
  fun hlt => absurd (lt_of_le_of_lt (hr i).1 hlt) (not_lt.mpr hpe)

/-- Number of uniform draws consumed by one engine operation when no fault
fires. -/
def drawCount (cfg : CktCfg) (op : EngineOp) : ℕ :=
  match op with
  | .resetAnc => cfg.numAnc
  | .resetFlag => cfg.numFlag
  | _ => 1

theorem single_qubit_X_error_nonpos (cfg : CktCfg) {r : RandStream}
    (hr : validStream r) {pe : ℚ} (hpe : pe ≤ 0) (q : ℕ) (st : CktState) :
    single_qubit_X_error cfg r q pe st = { st with pos := st.pos + 1 } := by
  simp [single_qubit_X_error, draw, not_fire hr hpe]

theorem single_qubit_Z_error_nonpos (cfg : CktCfg) {r : RandStream}
    (hr : validStream r) {pe : ℚ} (hpe : pe ≤ 0) (q : ℕ) (st : CktState) :
    single_qubit_Z_error cfg r q pe st = { st with pos := st.pos + 1 } := by
  simp [single_qubit_Z_error, draw, not_fire hr hpe]

theorem single_qubit_depol_error_nonpos (cfg : CktCfg) {r : RandStream}
    (hr : validStream r) {pe : ℚ} (hpe : pe ≤ 0) (q : ℕ) (st : CktState) :
    single_qubit_depol_error cfg r q pe st = { st with pos := st.pos + 1 } := by
  simp [single_qubit_depol_error, draw, not_fire hr hpe]

theorem two_qubit_gate_depol_error_nonpos (cfg : CktCfg) {r : RandStream}
    (hr : validStream r) {pe : ℚ} (hpe : pe ≤ 0) (q1 q2 : ℕ) (st : CktState) :
    two_qubit_gate_depol_error cfg r q1 q2 pe st = { st with pos := st.pos + 1 } := by
  simp [two_qubit_gate_depol_error, draw, not_fire hr hpe]

theorem one_stochastic_qubit_nonpos (cfg : CktCfg) {r : RandStream}
    (hr : validStream r) {pe : ℚ} (hpe : pe ≤ 0) (q : ℕ) (st : CktState) :
    one_stochastic_qubit cfg r pe q st = { st with pos := st.pos + 1 } := by
  simp [one_stochastic_qubit, draw, not_fire hr hpe]

theorem measure_Z_basis_nonpos (cfg : CktCfg) {r : RandStream}
    (hr : validStream r) {pe : ℚ} (hpe : cfg.sMeas * pe ≤ 0) (q : ℕ)
    (st : CktState) :
    measure_Z_basis cfg r q pe st =
      (st.acc.getD q false, { st with pos := st.pos + 1 }) := by
  simp [measure_Z_basis, draw, not_fire hr hpe]

theorem measure_X_basis_nonpos (cfg : CktCfg) {r : RandStream}
    (hr : validStream r) {pe : ℚ} (hpe : cfg.sMeas * pe ≤ 0) (q : ℕ)
    (st : CktState) :
    measure_X_basis cfg r q pe st =
      (st.acc.getD (q + cfg.numAll) false, { st with pos := st.pos + 1 }) := by
  simp [measure_X_basis, draw, not_fire hr hpe]

theorem prepare_Z_basis_nonpos (cfg : CktCfg) {r : RandStream}
    (hr : validStream r) {pe : ℚ} (hpe : cfg.sPrep * pe ≤ 0) (q : ℕ)
    (st : CktState) :
    prepare_Z_basis cfg r q pe st =
      { acc := clearQubit cfg q st.acc, pos := st.pos + 1 } := by
  simp [prepare_Z_basis, single_qubit_X_error_nonpos cfg hr hpe q]

theorem prepare_X_basis_nonpos (cfg : CktCfg) {r : RandStream}
    (hr : validStream r) {pe : ℚ} (hpe : cfg.sPrep * pe ≤ 0) (q : ℕ)
    (st : CktState) :
    prepare_X_basis cfg r q pe st =
      { acc := clearQubit cfg q st.acc, pos := st.pos + 1 } := by
  simp [prepare_X_basis, single_qubit_Z_error_nonpos cfg hr hpe q]

theorem reset_one_ancilla_nonpos (cfg : CktCfg) {r : RandStream}
    (hr : validStream r) {pe : ℚ} (hpe : cfg.sPrep * pe ≤ 0) (i : ℕ)
    (st : CktState) :
    reset_one_ancilla cfg r pe i st =
      { acc := clearQubit cfg (cfg.numData + i) st.acc, pos := st.pos + 1 } := by
  simp [reset_one_ancilla, single_qubit_X_error_nonpos cfg hr hpe _]

theorem reset_one_flag_nonpos (cfg : CktCfg) {r : RandStream}
    (hr : validStream r) {pe : ℚ} (hpe : cfg.sPrep * pe ≤ 0) (i : ℕ)
    (st : CktState) :
    reset_one_flag cfg r pe i st =
      { acc := clearQubit cfg (cfg.numData + cfg.numAnc + i) st.acc,
        pos := st.pos + 1 } := by
  simp [reset_one_flag, single_qubit_Z_error_nonpos cfg hr hpe _]

theorem foldl_reset_one_ancilla_nonpos (cfg : CktCfg) {r : RandStream}
    (hr : validStream r) {pe : ℚ} (hpe : cfg.sPrep * pe ≤ 0) (l : List ℕ)
    (st : CktState) :
    l.foldl (fun s i => reset_one_ancilla cfg r pe i s) st =
      { acc := l.foldl (fun a i => clearQubit cfg (cfg.numData + i) a) st.acc,
        pos := st.pos + l.length } := by
  induction l generalizing st with
  | nil => simp
  | cons x xs ih =>
      simp only [List.foldl_cons, reset_one_ancilla_nonpos cfg hr hpe x, ih,
        List.length_cons]
      refine congrArg _ ?_
      omega

theorem reset_ancilla_nonpos (cfg : CktCfg) {r : RandStream}
    (hr : validStream r) {pe : ℚ} (hpe : cfg.sPrep * pe ≤ 0) (st : CktState) :
    reset_ancilla cfg r pe st =
      { acc := (List.range cfg.numAnc).foldl
          (fun a i => clearQubit cfg (cfg.numData + i) a) st.acc,
        pos := st.pos + cfg.numAnc } := by
  simp [reset_ancilla, foldl_reset_one_ancilla_nonpos cfg hr hpe]

theorem foldl_reset_one_flag_nonpos (cfg : CktCfg) {r : RandStream}
    (hr : validStream r) {pe : ℚ} (hpe : cfg.sPrep * pe ≤ 0) (l : List ℕ)
    (st : CktState) :
    l.foldl (fun s i => reset_one_flag cfg r pe i s) st =
      { acc := l.foldl (fun a i => clearQubit cfg (cfg.numData + cfg.numAnc + i) a) st.acc,
        pos := st.pos + l.length } := by
  induction l generalizing st with
  | nil => simp
  | cons x xs ih =>
      simp only [List.foldl_cons, reset_one_flag_nonpos cfg hr hpe x, ih,
        List.length_cons]
      refine congrArg _ ?_
      omega

theorem reset_flag_nonpos (cfg : CktCfg) {r : RandStream}
    (hr : validStream r) {pe : ℚ} (hpe : cfg.sPrep * pe ≤ 0) (st : CktState) :
    reset_flag cfg r pe st =
      { acc := (List.range cfg.numFlag).foldl
          (fun a i => clearQubit cfg (cfg.numData + cfg.numAnc + i) a) st.acc,
        pos := st.pos + cfg.numFlag } := by
  simp [reset_flag, foldl_reset_one_flag_nonpos cfg hr hpe]

theorem foldl_one_stochastic_nonpos (cfg : CktCfg) {r : RandStream}
    (hr : validStream r) {pe : ℚ} (hpe : pe ≤ 0) (l : List ℕ)
    (st : CktState) :
    l.foldl (fun s q => one_stochastic_qubit cfg r pe q s) st =
      { st with pos := st.pos + l.length } := by
  induction l generalizing st with
  | nil => simp
  | cons x xs ih =>
      simp only [List.foldl_cons, one_stochastic_qubit_nonpos cfg hr hpe x, ih,
        List.length_cons]
      refine congrArg _ ?_
      omega

theorem one_stochastic_pauli_error_data_qubits_nonpos (cfg : CktCfg)
    {r : RandStream} (hr : validStream r) {pe : ℚ} (hpe : pe ≤ 0)
    (st : CktState) :
    one_stochastic_pauli_error_data_qubits cfg r pe st =
      { st with pos := st.pos + cfg.numData } := by
  simp [one_stochastic_pauli_error_data_qubits,
    foldl_one_stochastic_nonpos cfg hr hpe]

theorem h_nonpos (cfg : CktCfg) {r : RandStream} (hr : validStream r)
    {pe : ℚ} (hpe : cfg.sSingle * pe ≤ 0) (q : ℕ) (tc : Option ErrorSpec)
    (loc : ℕ) (st : CktState) :
    h cfg r q pe tc loc st =
      { acc := noiselessOp cfg (.h q) st.acc, pos := st.pos + 1 } := by
  simp [h, single_qubit_depol_error_nonpos cfg hr hpe q, noiselessOp]

theorem cnot_nonpos (cfg : CktCfg) {r : RandStream} (hr : validStream r)
    {pe : ℚ} (hpe : cfg.sTwo * pe ≤ 0) (c t : ℕ) (tc : Option ErrorSpec)
    (loc : ℕ) (st : CktState) :
    cnot cfg r c t pe tc loc st =
      { acc := noiselessOp cfg (.cnot c t loc) st.acc, pos := st.pos + 1 } := by
  simp [cnot, two_qubit_gate_error,
    two_qubit_gate_depol_error_nonpos cfg hr hpe c t, noiselessOp]

theorem xnot_nonpos (cfg : CktCfg) {r : RandStream} (hr : validStream r)
    {pe : ℚ} (hpe : cfg.sTwo * pe ≤ 0) (a b : ℕ) (tc : Option ErrorSpec)
    (loc : ℕ) (st : CktState) :
    xnot cfg r a b pe tc loc st =
      { acc := noiselessOp cfg (.xnot a b loc) st.acc, pos := st.pos + 1 } := by
  simp [xnot, two_qubit_gate_error,
    two_qubit_gate_depol_error_nonpos cfg hr hpe a b, noiselessOp]

theorem ynot_nonpos (cfg : CktCfg) {r : RandStream} (hr : validStream r)
    {pe : ℚ} (hpe : cfg.sTwo * pe ≤ 0) (a b : ℕ) (tc : Option ErrorSpec)
    (loc : ℕ) (st : CktState) :
    ynot cfg r a b pe tc loc st =
      { acc := noiselessOp cfg (.ynot a b loc) st.acc, pos := st.pos + 1 } := by
  simp [ynot, two_qubit_gate_error,
    two_qubit_gate_depol_error_nonpos cfg hr hpe a b, noiselessOp]

theorem cz_nonpos (cfg : CktCfg) {r : RandStream} (hr : validStream r)
    {pe : ℚ} (hpe : cfg.sTwo * pe ≤ 0) (a b : ℕ) (tc : Option ErrorSpec)
    (loc : ℕ) (st : CktState) :
    cz cfg r a b pe tc loc st =
      { acc := noiselessOp cfg (.cz a b loc) st.acc, pos := st.pos + 1 } := by
  simp [cz, two_qubit_gate_error,
    two_qubit_gate_depol_error_nonpos cfg hr hpe a b, noiselessOp]

/-- At a nonpositive rate no fault of any kind fires: every engine operation
equals its noiseless reference semantics (the cursor advances by the fixed
number of unconditional draws). -/
theorem runOp_noiseless (cfg : CktCfg) {r : RandStream} (hr : validStream r)
    {p : ℚ} (hp : p ≤ 0) (h2 : cfg.sTwo * p ≤ 0) (h1 : cfg.sSingle * p ≤ 0)
    (hprep : cfg.sPrep * p ≤ 0) (hmeas : cfg.sMeas * p ≤ 0)
    (op : EngineOp) (st : CktState) :
    runOp cfg r p op st =
      { acc := noiselessOp cfg op st.acc, pos := st.pos + drawCount cfg op } := by
  cases op with
  | prepZ q =>
      simp [runOp, prepare_Z_basis_nonpos cfg hr hprep q, noiselessOp, drawCount]
  | prepX q =>
      simp [runOp, prepare_X_basis_nonpos cfg hr hprep q, noiselessOp, drawCount]
  | resetAnc =>
      simp [runOp, reset_ancilla_nonpos cfg hr hprep, noiselessOp, drawCount]
  | resetFlag =>
      simp [runOp, reset_flag_nonpos cfg hr hprep, noiselessOp, drawCount]
  | h q => simp [runOp, h_nonpos cfg hr h1 q, drawCount]
  | cnot c t loc => simp [runOp, cnot_nonpos cfg hr h2 c t, drawCount]
  | xnot a b loc => simp [runOp, xnot_nonpos cfg hr h2 a b, drawCount]
  | ynot a b loc => simp [runOp, ynot_nonpos cfg hr h2 a b, drawCount]
  | cz a b loc => simp [runOp, cz_nonpos cfg hr h2 a b, drawCount]
  | measZ q =>
      simp [runOp, measure_Z_basis_nonpos cfg hr hmeas q, noiselessOp, drawCount]
  | measX q =>
      simp [runOp, measure_X_basis_nonpos cfg hr hmeas q, noiselessOp, drawCount]
  | singleDepol q =>
      simp [runOp, single_qubit_depol_error_nonpos cfg hr hp q, noiselessOp,
        drawCount]
  | twoDepol q1 q2 =>
      simp [runOp, two_qubit_gate_depol_error_nonpos cfg hr hp q1 q2,
        noiselessOp, drawCount]

/-- C6: With fault probability 0, any two runs of the same engine call
sequence from the same state, under arbitrary (possibly different) valid
random draw sequences, produce identical circuit states — in particular
identical pauli accumulators. -/
theorem zero_rate_runs_identical (cfg : CktCfg) (ops : List EngineOp)
    {r1 r2 : RandStream} (hr1 : validStream r1) (hr2 : validStream r2)
    (st : CktState) :
    runOps cfg r1 0 ops st = runOps cfg r2 0 ops st := by
  induction ops generalizing st with
  | nil => rfl
  | cons op rest ih =>
      simp only [runOps, List.foldl_cons]
      rw [show (runOp cfg r1 0 op st = runOp cfg r2 0 op st) from ?_]
      · exact ih _
      · rw [runOp_noiseless cfg hr1 le_rfl (by rw [mul_zero]) (by rw [mul_zero])
          (by rw [mul_zero]) (by rw [mul_zero]),
          runOp_noiseless cfg hr2 le_rfl (by rw [mul_zero]) (by rw [mul_zero])
          (by rw [mul_zero]) (by rw [mul_zero])]

/-- Witness for C6: a concrete five-op sequence run under the all-zero and
the all-one-half draw streams gives the same final state. -/
theorem zero_rate_runs_identical_witness :
    validStream constZeroStream ∧ validStream constHalfStream ∧
      runOps fiveQubitChaoCfg constZeroStream 0
        [.prepZ 0, .h 0, .cnot 0 5 1, .xnot 1 5 2, .measZ 5]
        { acc := zeroAcc fiveQubitChaoCfg, pos := 0 } =
      runOps fiveQubitChaoCfg constHalfStream 0
        [.prepZ 0, .h 0, .cnot 0 5 1, .xnot 1 5 2, .measZ 5]
        { acc := zeroAcc fiveQubitChaoCfg, pos := 0 } :=
  ⟨validStream_constZero, validStream_constHalf,
    zero_rate_runs_identical fiveQubitChaoCfg _ validStream_constZero
      validStream_constHalf _⟩

/-- The symplectic positions an engine operation may touch: the X and Z bits
of its operand qubits (empty for measurements). -/
def opSupport (cfg : CktCfg) (op : EngineOp) : List ℕ :=
  match op with
  | .prepZ q => [q, q + cfg.numAll]
  | .prepX q => [q, q + cfg.numAll]
  | .resetAnc =>
      (List.range cfg.numAnc).flatMap
        (fun i => [cfg.numData + i, cfg.numData + i + cfg.numAll])
  | .resetFlag =>
      (List.range cfg.numFlag).flatMap
        (fun i => [cfg.numData + cfg.numAnc + i,
                   cfg.numData + cfg.numAnc + i + cfg.numAll])
  | .h q => [q, q + cfg.numAll]
  | .cnot c t _ => [c, t, c + cfg.numAll, t + cfg.numAll]
  | .xnot a b _ => [a, b, a + cfg.numAll, b + cfg.numAll]
  | .ynot a b _ => [a, b, a + cfg.numAll, b + cfg.numAll]
  | .cz a b _ => [a, b, a + cfg.numAll, b + cfg.numAll]
  | .measZ _ => []
  | .measX _ => []
  | .singleDepol q => [q, q + cfg.numAll]
  | .twoDepol q1 q2 => [q1, q2, q1 + cfg.numAll, q2 + cfg.numAll]

/-- The clearing part of an engine operation: preparations and resets zero
the prepared qubits' two bits, every other operation clears nothing. -/
def opClears (cfg : CktCfg) (op : EngineOp) (acc : List Bool) : List Bool :=
  match op with
  | .prepZ q => clearQubit cfg q acc
  | .prepX q => clearQubit cfg q acc
  | .resetAnc =>
      (List.range cfg.numAnc).foldl
        (fun a i => clearQubit cfg (cfg.numData + i) a) acc
  | .resetFlag =>
      (List.range cfg.numFlag).foldl
        (fun a i => clearQubit cfg (cfg.numData + cfg.numAnc + i) a) acc
  | _ => acc

/-- Whether the operation is a measurement. -/
def isMeasOp : EngineOp → Bool
  | .measZ _ => true
  | .measX _ => true
  | _ => false

/-- `a` has the same length as `b` and agrees with it off the index set `S`. -/
def agreesOutside (S : List ℕ) (a b : List Bool) : Prop :=
  a.length = b.length ∧ ∀ i, i ∉ S → a.getD i false = b.getD i false

theorem agreesOutside_refl (S : List ℕ) (a : List Bool) :
    agreesOutside S a a := ⟨rfl, fun _ _ => rfl⟩

theorem agreesOutside_trans {S : List ℕ} {a b c : List Bool}
    (h1 : agreesOutside S a b) (h2 : agreesOutside S b c) :
    agreesOutside S a c :=
  ⟨h1.1.trans h2.1, fun i hi => (h1.2 i hi).trans (h2.2 i hi)⟩

theorem agreesOutside_set {S : List ℕ} {i : ℕ} (hi : i ∈ S)
    (a : List Bool) (x : Bool) : agreesOutside S (a.set i x) a := by
  refine ⟨by simp, fun j hj => ?_⟩
  have hij : i ≠ j := fun hh => hj (hh ▸ hi)
  simp [List.getD_eq_getElem?_getD, List.getElem?_set_ne hij]

theorem agreesOutside_xorAt {S : List ℕ} {i : ℕ} (hi : i ∈ S)
    (a : List Bool) : agreesOutside S (xorAt a i) a :=
  agreesOutside_set hi a _

theorem agreesOutside_clearQubit {S : List ℕ} (cfg : CktCfg) {q : ℕ}
    (hq : q ∈ S) (hq2 : q + cfg.numAll ∈ S) (a : List Bool) :
    agreesOutside S (clearQubit cfg q a) a :=
  agreesOutside_trans (agreesOutside_set hq2 _ _) (agreesOutside_set hq a _)

theorem agreesOutside_spe {S : List ℕ} (cfg : CktCfg) (pidx : ℕ) {q : ℕ}
    (hq : q ∈ S) (hq2 : q + cfg.numAll ∈ S) (a : List Bool) :
    agreesOutside S (single_qubit_pauli_error cfg pidx q a) a := by
  unfold single_qubit_pauli_error
  split
  · exact agreesOutside_xorAt hq a
  · split
    · exact agreesOutside_trans (agreesOutside_xorAt hq2 _)
        (agreesOutside_xorAt hq a)
    · split
      · exact agreesOutside_xorAt hq2 a
      · exact agreesOutside_refl S a

theorem agreesOutside_tpe {S : List ℕ} (cfg : CktCfg) (p1 p2 : ℕ) {q1 q2 : ℕ}
    (h1 : q1 ∈ S) (h1b : q1 + cfg.numAll ∈ S) (h2 : q2 ∈ S)
    (h2b : q2 + cfg.numAll ∈ S) (a : List Bool) :
    agreesOutside S (two_qubit_pauli_error cfg p1 p2 q1 q2 a) a :=
  agreesOutside_trans (agreesOutside_spe cfg p2 h2 h2b _)
    (agreesOutside_spe cfg p1 h1 h1b a)

theorem agreesOutside_sX {S : List ℕ} (cfg : CktCfg) (r : RandStream) {q : ℕ}
    (hq : q ∈ S) (pe : ℚ) (st : CktState) :
    agreesOutside S (single_qubit_X_error cfg r q pe st).acc st.acc := by
  simp only [single_qubit_X_error, draw]
  split
  · exact agreesOutside_xorAt hq st.acc
  · exact agreesOutside_refl S st.acc

theorem agreesOutside_sZ {S : List ℕ} (cfg : CktCfg) (r : RandStream) {q : ℕ}
    (hq : q + cfg.numAll ∈ S) (pe : ℚ) (st : CktState) :
    agreesOutside S (single_qubit_Z_error cfg r q pe st).acc st.acc := by
  simp only [single_qubit_Z_error, draw]
  split
  · exact agreesOutside_xorAt hq st.acc
  · exact agreesOutside_refl S st.acc

theorem agreesOutside_sdep {S : List ℕ} (cfg : CktCfg) (r : RandStream)
    {q : ℕ} (hq : q ∈ S) (hq2 : q + cfg.numAll ∈ S) (pe : ℚ) (st : CktState) :
    agreesOutside S (single_qubit_depol_error cfg r q pe st).acc st.acc := by
  unfold single_qubit_depol_error draw
  simp only
  split
  · split
    · exact agreesOutside_spe cfg 1 hq hq2 st.acc
    · split
      · exact agreesOutside_spe cfg 2 hq hq2 st.acc
      · split
        · exact agreesOutside_spe cfg 3 hq hq2 st.acc
        · exact agreesOutside_refl S st.acc
  · exact agreesOutside_refl S st.acc

theorem agreesOutside_tdep {S : List ℕ} (cfg : CktCfg) (r : RandStream)
    {q1 q2 : ℕ} (h1 : q1 ∈ S) (h1b : q1 + cfg.numAll ∈ S) (h2 : q2 ∈ S)
    (h2b : q2 + cfg.numAll ∈ S) (pe : ℚ) (st : CktState) :
    agreesOutside S (two_qubit_gate_depol_error cfg r q1 q2 pe st).acc st.acc := by
  simp only [two_qubit_gate_depol_error, draw]
  split
  · exact agreesOutside_tpe cfg _ _ h1 h1b h2 h2b st.acc
  · exact agreesOutside_refl S st.acc

theorem agreesOutside_tge_none {S : List ℕ} (cfg : CktCfg) (r : RandStream)
    (loc : ℕ) {q1 q2 : ℕ} (h1 : q1 ∈ S) (h1b : q1 + cfg.numAll ∈ S)
    (h2 : q2 ∈ S) (h2b : q2 + cfg.numAll ∈ S) (pe : ℚ) (st : CktState) :
    agreesOutside S (two_qubit_gate_error cfg r none loc q1 q2 pe st).acc
      st.acc :=
  agreesOutside_tdep cfg r h1 h1b h2 h2b pe st

theorem measure_Z_basis_acc (cfg : CktCfg) (r : RandStream) (q : ℕ) (pe : ℚ)
    (st : CktState) : (measure_Z_basis cfg r q pe st).2.acc = st.acc := by
  simp [measure_Z_basis, draw]

theorem measure_X_basis_acc (cfg : CktCfg) (r : RandStream) (q : ℕ) (pe : ℚ)
    (st : CktState) : (measure_X_basis cfg r q pe st).2.acc = st.acc := by
  simp [measure_X_basis, draw]

theorem agreesOutside_ite_xorAt {S : List ℕ} {i : ℕ} (hi : i ∈ S) (b : Bool)
    (a : List Bool) : agreesOutside S (if b then xorAt a i else a) a := by
  cases b
  · exact agreesOutside_refl S a
  · exact agreesOutside_xorAt hi a

theorem getD_set_self (l : List Bool) (i : ℕ) (x : Bool) :
    (l.set i x).getD i false = if i < l.length then x else l.getD i false := by
  rw [List.getD_eq_getElem?_getD, List.getElem?_set, if_pos rfl]
  by_cases hlt : i < l.length
  · simp [hlt]
  · simp [hlt, List.getD_eq_getElem?_getD,
      List.getElem?_eq_none (Nat.le_of_not_lt hlt)]

/-- Two lists agreeing off `S` still agree off `S` after setting the same
value at the same index in both. -/
theorem agreesOutside_congr_set {S : List ℕ} {a b : List Bool}
    (hab : agreesOutside S a b) (i : ℕ) (x : Bool) :
    agreesOutside S (a.set i x) (b.set i x) := by
  refine ⟨by simp [hab.1], fun j hj => ?_⟩
  by_cases hij : i = j
  · subst hij
    rw [getD_set_self, getD_set_self, hab.1]
    split
    · rfl
    · exact hab.2 i hj
  · rw [List.getD_eq_getElem?_getD, List.getElem?_set_ne hij,
      List.getD_eq_getElem?_getD (b.set i x), List.getElem?_set_ne hij,
      ← List.getD_eq_getElem?_getD, ← List.getD_eq_getElem?_getD]
    exact hab.2 j hj

theorem agreesOutside_congr_clearQubit {S : List ℕ} (cfg : CktCfg) (q : ℕ)
    {a b : List Bool} (hab : agreesOutside S a b) :
    agreesOutside S (clearQubit cfg q a) (clearQubit cfg q b) :=
  agreesOutside_congr_set (agreesOutside_congr_set hab q false) _ false

theorem agreesOutside_congr_clear_fold {S : List ℕ} (cfg : CktCfg)
    (f : ℕ → ℕ) (l : List ℕ) {a b : List Bool} (hab : agreesOutside S a b) :
    agreesOutside S (l.foldl (fun x i => clearQubit cfg (f i) x) a)
      (l.foldl (fun x i => clearQubit cfg (f i) x) b) := by
  induction l generalizing a b with
  | nil => exact hab
  | cons x xs ih =>
      exact ih (agreesOutside_congr_clearQubit cfg (f x) hab)

theorem agreesOutside_reset_anc_fold {S : List ℕ} (cfg : CktCfg)
    (r : RandStream) (pe : ℚ) (l : List ℕ)
    (hS : ∀ i ∈ l, cfg.numData + i ∈ S)
    (st : CktState) :
    agreesOutside S
      (l.foldl (fun s i => reset_one_ancilla cfg r pe i s) st).acc
      (l.foldl (fun a i => clearQubit cfg (cfg.numData + i) a) st.acc) := by
  induction l generalizing st with
  | nil => exact agreesOutside_refl S st.acc
  | cons x xs ih =>
      simp only [List.foldl_cons]
      have hstep : agreesOutside S (reset_one_ancilla cfg r pe x st).acc
          (clearQubit cfg (cfg.numData + x) st.acc) :=
        agreesOutside_sX cfg r (hS x (List.mem_cons_self x xs)) _ _
      refine agreesOutside_trans
        (ih (fun i hi => hS i (List.mem_cons_of_mem x hi)) _)
        (agreesOutside_congr_clear_fold cfg _ xs hstep)

theorem agreesOutside_reset_flag_fold {S : List ℕ} (cfg : CktCfg)
    (r : RandStream) (pe : ℚ) (l : List ℕ)
    (hS : ∀ i ∈ l, cfg.numData + cfg.numAnc + i + cfg.numAll ∈ S)
    (st : CktState) :
    agreesOutside S
      (l.foldl (fun s i => reset_one_flag cfg r pe i s) st).acc
      (l.foldl (fun a i => clearQubit cfg (cfg.numData + cfg.numAnc + i) a)
        st.acc) := by
  induction l generalizing st with
  | nil => exact agreesOutside_refl S st.acc
  | cons x xs ih =>
      simp only [List.foldl_cons]
      have hstep : agreesOutside S (reset_one_flag cfg r pe x st).acc
          (clearQubit cfg (cfg.numData + cfg.numAnc + x) st.acc) :=
        agreesOutside_sZ cfg r (hS x (List.mem_cons_self x xs)) _ _
      refine agreesOutside_trans
        (ih (fun i hi => hS i (List.mem_cons_of_mem x hi)) _)
        (agreesOutside_congr_clear_fold cfg _ xs hstep)

/-- Every engine operation leaves the accumulator's length unchanged and
modifies it only at positions in the operation's support, relative to the
operation's clearing part. -/
theorem runOp_agrees (cfg : CktCfg) (r : RandStream) (p : ℚ) (op : EngineOp)
    (st : CktState) :
    agreesOutside (opSupport cfg op) (runOp cfg r p op st).acc
      (opClears cfg op st.acc) := by
  cases op with
  | prepZ q =>
      simp only [runOp, prepare_Z_basis, opClears, opSupport]
      exact agreesOutside_sX cfg r (by simp) _ _
  | prepX q =>
      simp only [runOp, prepare_X_basis, opClears, opSupport]
      exact agreesOutside_sZ cfg r (by simp) _ _
  | resetAnc =>
      simp only [runOp, reset_ancilla, opClears, opSupport]
      refine agreesOutside_reset_anc_fold cfg r _ _ (fun i hi => ?_) st
      exact List.mem_flatMap.mpr ⟨i, hi, by simp⟩
  | resetFlag =>
      simp only [runOp, reset_flag, opClears, opSupport]
      refine agreesOutside_reset_flag_fold cfg r _ _ (fun i hi => ?_) st
      exact List.mem_flatMap.mpr ⟨i, hi, by simp⟩
  | h q =>
      simp only [runOp, h, opClears, opSupport]
      refine agreesOutside_trans (agreesOutside_sdep cfg r (by simp) (by simp) _ _) ?_
      exact agreesOutside_trans
        (agreesOutside_set (by simp) _ _) (agreesOutside_set (by simp) _ _)
  | cnot c t loc =>
      simp only [runOp, cnot, opClears, opSupport]
      refine agreesOutside_trans
        (agreesOutside_tge_none cfg r loc (by simp) (by simp) (by simp) (by simp) _ _) ?_
      exact agreesOutside_trans
        (agreesOutside_ite_xorAt (by simp) _ _) (agreesOutside_ite_xorAt (by simp) _ _)
  | xnot a b loc =>
      simp only [runOp, xnot, opClears, opSupport]
      refine agreesOutside_trans
        (agreesOutside_tge_none cfg r loc (by simp) (by simp) (by simp) (by simp) _ _) ?_
      exact agreesOutside_trans
        (agreesOutside_ite_xorAt (by simp) _ _) (agreesOutside_ite_xorAt (by simp) _ _)
  | ynot o y loc =>
      simp only [runOp, ynot, opClears, opSupport]
      refine agreesOutside_trans
        (agreesOutside_tge_none cfg r loc (by simp) (by simp) (by simp) (by simp) _ _) ?_
      refine agreesOutside_trans (agreesOutside_ite_xorAt (by simp) _ _) ?_
      refine agreesOutside_trans (agreesOutside_ite_xorAt (by simp) _ _) ?_
      split
      · exact agreesOutside_trans
          (agreesOutside_xorAt (by simp) _) (agreesOutside_xorAt (by simp) _)
      · exact agreesOutside_refl _ _
  | cz a b loc =>
      simp only [runOp, cz, opClears, opSupport]
      refine agreesOutside_trans
        (agreesOutside_tge_none cfg r loc (by simp) (by simp) (by simp) (by simp) _ _) ?_
      exact agreesOutside_trans
        (agreesOutside_ite_xorAt (by simp) _ _) (agreesOutside_ite_xorAt (by simp) _ _)
  | measZ q =>
      simp only [runOp, opClears, measure_Z_basis_acc]
      exact agreesOutside_refl _ _
  | measX q =>
      simp only [runOp, opClears, measure_X_basis_acc]
      exact agreesOutside_refl _ _
  | singleDepol q =>
      simp only [runOp, opClears, opSupport]
      exact agreesOutside_sdep cfg r (by simp) (by simp) _ _
  | twoDepol q1 q2 =>
      simp only [runOp, opClears, opSupport]
      exact agreesOutside_tdep cfg r (by simp) (by simp) (by simp) (by simp) _ _

theorem xorVec_getD {a b : List Bool} (hlen : a.length = b.length) (i : ℕ) :
    (xorVec a b).getD i false = xor (a.getD i false) (b.getD i false) := by
  induction a generalizing b i with
  | nil =>
      cases b with
      | nil => simp [xorVec]
      | cons y ys => simp at hlen
  | cons x xs ih =>
      cases b with
      | nil => simp at hlen
      | cons y ys =>
          cases i with
          | zero => simp [xorVec]
          | succ n =>
              simp only [xorVec, List.zipWith_cons_cons, List.getD_cons_succ]
              exact ih (by simpa using hlen) n

theorem xorVec_cancel {a c : List Bool} (hlen : a.length = c.length) :
    xorVec a (xorVec a c) = c := by
  induction a generalizing c with
  | nil =>
      cases c with
      | nil => rfl
      | cons y ys => simp at hlen
  | cons x xs ih =>
      cases c with
      | nil => simp at hlen
      | cons y ys =>
          simp only [xorVec, List.zipWith_cons_cons, List.cons.injEq]
          refine ⟨by cases x <;> cases y <;> rfl, ih (by simpa using hlen)⟩

/-- C9: every engine operation updates the pauli accumulator only by XOR
composition with an error string supported on the operation's own qubits,
on top of the clearing of the prepared qubit's two bits that happens exactly
at (re)preparations; in particular measurements never modify the
accumulator. -/
theorem pauli_frame_update_discipline (cfg : CktCfg) (r : RandStream)
    (p : ℚ) (op : EngineOp) (st : CktState) :
    (isMeasOp op = true → (runOp cfg r p op st).acc = st.acc) ∧
    ∃ e : List Bool,
      (runOp cfg r p op st).acc = xorVec (opClears cfg op st.acc) e ∧
      ∀ i, i ∉ opSupport cfg op → e.getD i false = false := by
  have hag := runOp_agrees cfg r p op st
  constructor
  · intro hm
    cases op <;> simp_all [isMeasOp, runOp, measure_Z_basis_acc,
      measure_X_basis_acc]
  · refine ⟨xorVec (opClears cfg op st.acc) (runOp cfg r p op st).acc, ?_, ?_⟩
    · exact (xorVec_cancel hag.1.symm).symm
    · intro i hi
      rw [xorVec_getD hag.1.symm i, hag.2 i hi]
      simp

/-- Witness for C9 at a measurement and at a concrete state: the implication
hypothesis is discharged by `rfl`. -/
theorem pauli_frame_update_discipline_witness :
    (runOp fiveQubitChaoCfg constHalfStream 1 (.measZ 5)
        { acc := zeroAcc fiveQubitChaoCfg, pos := 0 }).acc =
      ({ acc := zeroAcc fiveQubitChaoCfg, pos := 0 } : CktState).acc ∧
    ∃ e : List Bool,
      (runOp fiveQubitChaoCfg constHalfStream 1 (.measZ 5)
          { acc := zeroAcc fiveQubitChaoCfg, pos := 0 }).acc =
        xorVec (opClears fiveQubitChaoCfg (.measZ 5)
          ({ acc := zeroAcc fiveQubitChaoCfg, pos := 0 } : CktState).acc) e ∧
      ∀ i, i ∉ opSupport fiveQubitChaoCfg (.measZ 5) → e.getD i false = false :=
  ⟨(pauli_frame_update_discipline fiveQubitChaoCfg constHalfStream 1
      (.measZ 5) _).1 rfl,
   (pauli_frame_update_discipline fiveQubitChaoCfg constHalfStream 1
      (.measZ 5) _).2⟩

/-- A concrete directed override: inject Z on qubit 0 and Z on qubit 1 at
location 5. -/
def ceSpec : ErrorSpec :=
  { inject_error := true, error_loc := some 5,
    qubit_idx1 := 0, qubit_idx2 := 1, pauli_idx1 := 3, pauli_idx2 := 3 }

/-- A concrete freshly constructed circuit state. -/
def cst0 : CktState := { acc := zeroAcc fiveQubitChaoCfg, pos := 0 }

/-- Counterexample to C7 as stated: a `cnot` invoked with a matching
directed override does not inject the specified Pauli pair — the gate passes
`None` for the `test_config`, so the override is ignored (here the
stochastic fault does not fire either, and the accumulator stays zero
instead of carrying the directed Z-Z). -/
theorem cnot_ignores_override_counterexample :
    (cnot fiveQubitChaoCfg constHalfStream 0 1 (1/4) (some ceSpec) 5
        cst0).acc ≠
      two_qubit_pauli_error fiveQubitChaoCfg 3 3 0 1 (zeroAcc fiveQubitChaoCfg) := by
  decide

/-- C7 amended: `two_qubit_gate_error` does inject exactly the specified
Pauli pair when a `test_config` with a matching location is supplied (and
consumes no randomness), but the gates `cnot`, `xnot`, `ynot` and `cz` pass
`None` as the `test_config`, so every two-qubit gate invocation uses the
stochastic depolarizing fault regardless of any supplied override. -/
theorem override_only_in_helper_not_in_gates (cfg : CktCfg) (r : RandStream)
    (sp : ErrorSpec) (loc q1 q2 : ℕ) (pe : ℚ) (st : CktState)
    (hinj : sp.inject_error = true) (hloc : sp.error_loc = some loc) :
    two_qubit_gate_error cfg r (some sp) loc q1 q2 pe st =
      { st with acc := (two_qubit_pauli_error cfg sp.pauli_idx1 sp.pauli_idx2
          sp.qubit_idx1 sp.qubit_idx2 st.acc) } ∧
    (∀ (tc : Option ErrorSpec) (c t loc2 : ℕ) (st2 : CktState),
       cnot cfg r c t pe tc loc2 st2 = cnot cfg r c t pe none loc2 st2) ∧
    (∀ (tc : Option ErrorSpec) (a b loc2 : ℕ) (st2 : CktState),
       xnot cfg r a b pe tc loc2 st2 = xnot cfg r a b pe none loc2 st2) ∧
    (∀ (tc : Option ErrorSpec) (a b loc2 : ℕ) (st2 : CktState),
       ynot cfg r a b pe tc loc2 st2 = ynot cfg r a b pe none loc2 st2) ∧
    (∀ (tc : Option ErrorSpec) (a b loc2 : ℕ) (st2 : CktState),
       cz cfg r a b pe tc loc2 st2 = cz cfg r a b pe none loc2 st2) := by
  refine ⟨?_, fun _ _ _ _ _ => rfl, fun _ _ _ _ _ => rfl,
    fun _ _ _ _ _ => rfl, fun _ _ _ _ _ => rfl⟩
  simp [two_qubit_gate_error, hinj, hloc]

/-- Witness for the amended C7 at the concrete override `ceSpec`. -/
theorem override_only_in_helper_witness :
    ceSpec.inject_error = true ∧ ceSpec.error_loc = some 5 ∧
    (two_qubit_gate_error fiveQubitChaoCfg constHalfStream (some ceSpec) 5 0 1
        (1/4) cst0 =
      { cst0 with acc := (two_qubit_pauli_error fiveQubitChaoCfg
          ceSpec.pauli_idx1 ceSpec.pauli_idx2 ceSpec.qubit_idx1
          ceSpec.qubit_idx2 cst0.acc) } ∧
    (∀ (tc : Option ErrorSpec) (c t loc2 : ℕ) (st2 : CktState),
       cnot fiveQubitChaoCfg constHalfStream c t (1/4) tc loc2 st2 =
         cnot fiveQubitChaoCfg constHalfStream c t (1/4) none loc2 st2) ∧
    (∀ (tc : Option ErrorSpec) (a b loc2 : ℕ) (st2 : CktState),
       xnot fiveQubitChaoCfg constHalfStream a b (1/4) tc loc2 st2 =
         xnot fiveQubitChaoCfg constHalfStream a b (1/4) none loc2 st2) ∧
    (∀ (tc : Option ErrorSpec) (a b loc2 : ℕ) (st2 : CktState),
       ynot fiveQubitChaoCfg constHalfStream a b (1/4) tc loc2 st2 =
         ynot fiveQubitChaoCfg constHalfStream a b (1/4) none loc2 st2) ∧
    (∀ (tc : Option ErrorSpec) (a b loc2 : ℕ) (st2 : CktState),
       cz fiveQubitChaoCfg constHalfStream a b (1/4) tc loc2 st2 =
         cz fiveQubitChaoCfg constHalfStream a b (1/4) none loc2 st2)) :=
  ⟨rfl, rfl, override_only_in_helper_not_in_gates fiveQubitChaoCfg
    constHalfStream ceSpec 5 0 1 (1/4) cst0 rfl rfl⟩

/-- C1: `syndrome_decoding` XORs the zero-extended looked-up correction into
the accumulator exactly when the 1st-subround record is a key of the outer
table and the 2nd-subround record is a key of the corresponding inner table;
on a miss at either level (including absent records) the whole state — in
particular the accumulator — is left unchanged. -/
theorem syndrome_decoding_applies_iff (cfg : CktCfg) (tbl : SyndromeLUT)
    (st : ProtoState) :
    (∀ (k1 : Rec1Key) (inner : InnerLUT) (k2 : List Bool) (corr : List Bool),
       st.rec1 = some k1 → lookupA k1 tbl = some inner →
       st.rec2 = some k2 → lookupA k2 inner = some corr →
       syndrome_decoding cfg tbl st =
         { st with ckt := { st.ckt with
             acc := xorVec st.ckt.acc (zeroExtendCorrection cfg corr) } }) ∧
    (¬ (∃ (k1 : Rec1Key) (inner : InnerLUT) (k2 : List Bool) (corr : List Bool),
          st.rec1 = some k1 ∧ lookupA k1 tbl = some inner ∧
          st.rec2 = some k2 ∧ lookupA k2 inner = some corr) →
       syndrome_decoding cfg tbl st = st) := by
  constructor
  · intro k1 inner k2 corr h1 h2 h3 h4
    simp [syndrome_decoding, decoderLookup, h1, h2, h3, h4]
  · intro hmiss
    have hnone : decoderLookup tbl st.rec1 st.rec2 = none := by
      unfold decoderLookup
      cases hr1 : st.rec1 with
      | none => rfl
      | some k1 =>
          cases hl1 : lookupA k1 tbl with
          | none => simp [hl1]
          | some inner =>
              cases hr2 : st.rec2 with
              | none => simp [hl1, hr2]
              | some k2 =>
                  cases hl2 : lookupA k2 inner with
                  | none => simp [hl1, hr2, hl2]
                  | some corr =>
                      exact absurd ⟨k1, inner, k2, corr, hr1, hl1, hr2, hl2⟩ hmiss
    simp [syndrome_decoding, hnone]

/-- A single-entry example lookup table: outer key = nonzero syndrome on
generator 1, inner key = the weight-1 X-on-qubit-0 syndrome, correction =
X on data qubit 0. -/
def tblEx : SyndromeLUT :=
  [([some (true, false), none, none, none],
    [([false, false, false, true],
      [true, false, false, false, false, false, false, false, false, false])])]

/-- A protocol state holding records that hit `tblEx`. -/
def stHit : ProtoState :=
  { ckt := cst0, status := .IDLE, current := none,
    rec1 := some [some (true, false), none, none, none],
    rec2 := some [false, false, false, true], counts := [0] }

/-- A protocol state whose 2nd-subround record is absent (lookup miss). -/
def stMiss : ProtoState :=
  { ckt := cst0, status := .IDLE, current := none,
    rec1 := some [some (true, false), none, none, none],
    rec2 := none, counts := [0] }

/-- Witness for C1: the decoder applies the zero-extended correction on the
hit and changes nothing on the miss. -/
theorem syndrome_decoding_applies_iff_witness :
    syndrome_decoding fiveQubitChaoCfg tblEx stHit =
      { stHit with ckt := { stHit.ckt with
          acc := xorVec stHit.ckt.acc (zeroExtendCorrection fiveQubitChaoCfg
            [true, false, false, false, false, false, false, false, false,
             false]) } } ∧
    syndrome_decoding fiveQubitChaoCfg tblEx stMiss = stMiss :=
  ⟨(syndrome_decoding_applies_iff fiveQubitChaoCfg tblEx stHit).1
      [some (true, false), none, none, none]
      [([false, false, false, true],
        [true, false, false, false, false, false, false, false, false, false])]
      [false, false, false, true]
      [true, false, false, false, false, false, false, false, false, false]
      rfl (by decide) rfl (by decide),
   (syndrome_decoding_applies_iff fiveQubitChaoCfg tblEx stMiss).2
      (by rintro ⟨k1, inner, k2, corr, h1, h2, h3, h4⟩
          simp [stMiss] at h3)⟩

theorem sum_map_ite_lt (r W : ℕ) :
    ((List.range W).map (fun k => if k < r then 1 else 0)).sum = min r W := by
  induction W with
  | zero => simp
  | succ n ih =>
      rw [List.range_succ, List.map_append, List.sum_append]
      simp only [ih, List.map_cons, List.map_nil, List.sum_cons, List.sum_nil]
      split <;> omega

theorem sum_map_add_nat (l : List ℕ) (f g : ℕ → ℕ) :
    (l.map (fun x => f x + g x)).sum = (l.map f).sum + (l.map g).sum := by
  induction l with
  | nil => rfl
  | cons x xs ih => simp [ih]; omega

theorem sum_map_const_nat (l : List ℕ) (c : ℕ) :
    (l.map (fun _ => c)).sum = l.length * c := by
  induction l with
  | nil => simp
  | cons x xs ih => simp [ih, Nat.succ_mul]; omega

theorem lookupA_append {κ α : Type} [DecidableEq κ] (k : κ)
    (l1 l2 : List (κ × α)) :
    lookupA k (l1 ++ l2) =
      match lookupA k l1 with
      | some v => some v
      | none => lookupA k l2 := by
  induction l1 with
  | nil => simp [lookupA]
  | cons x xs ih =>
      rcases x with ⟨k2, v⟩
      by_cases hk : k = k2 <;> simp [lookupA, hk, ih]

theorem lookupA_updateA_self (k : ℚ) (v : ℕ) (l : List (ℚ × ℕ)) (c : ℕ)
    (hc : lookupA k l = some c) : lookupA k (updateA l k v) = some v := by
  induction l with
  | nil => simp [lookupA] at hc
  | cons x xs ih =>
      rcases x with ⟨k2, c2⟩
      by_cases hk : k = k2
      · simp [updateA, lookupA, hk]
      · simp only [lookupA, if_neg hk] at hc
        simp [updateA, lookupA, hk, Ne.symm hk, ih hc]

theorem lookupA_updateA_ne (k q : ℚ) (v : ℕ) (l : List (ℚ × ℕ))
    (hne : k ≠ q) : lookupA q (updateA l k v) = lookupA q l := by
  induction l with
  | nil => simp [updateA]
  | cons x xs ih =>
      rcases x with ⟨k2, c2⟩
      by_cases hk : k = k2
      · subst hk
        simp [updateA, lookupA, Ne.symm hne]
      · by_cases hq : q = k2 <;> simp [updateA, lookupA, hk, hq, ih]

theorem addResult_lookup (init : List (ℚ × ℕ)) (rec : WorkerResult) (q : ℚ) :
    (lookupA q (addResult init rec)).getD 0 =
      (lookupA q init).getD 0 +
        (if rec.p_phys = q then rec.logical_error_counts else 0) := by
  unfold addResult
  by_cases hq : rec.p_phys = q
  · subst hq
    cases hl : lookupA rec.p_phys init with
    | none =>
        rw [if_pos rfl, lookupA_append]
        simp [hl, lookupA]
    | some c =>
        rw [if_pos rfl, lookupA_updateA_self rec.p_phys _ init c hl]
        simp [Nat.add_comm]
  · cases hl : lookupA rec.p_phys init with
    | none =>
        rw [if_neg hq, lookupA_append]
        cases hlq : lookupA q init with
        | none => simp [lookupA, Ne.symm hq]
        | some c => simp
    | some c =>
        rw [if_neg hq, lookupA_updateA_ne rec.p_phys q _ init hq]
        simp

theorem aggregate_fold_lookup (rs : List WorkerResult)
    (init : List (ℚ × ℕ)) (q : ℚ) :
    (lookupA q (rs.foldl addResult init)).getD 0 =
      (lookupA q init).getD 0 +
        ((rs.filter (fun rec => rec.p_phys = q)).map
          (·.logical_error_counts)).sum := by
  induction rs generalizing init with
  | nil => simp
  | cons rec rest ih =>
      simp only [List.foldl_cons]
      rw [ih (addResult init rec), addResult_lookup]
      by_cases hq : rec.p_phys = q
      · simp [List.filter_cons, hq]
        omega
      · simp [List.filter_cons, hq]

/-- C8: the per-worker batch sizes sum to `samples_per_point` with the
remainder going one each to the lowest ranks, and the coordinator's
aggregated per-rate count is the sum of the workers' logical-error counts
for that rate. -/
theorem mpi_split_and_aggregate :
    (∀ W spp : ℕ, 1 ≤ W →
       ((List.range W).map (batchSize spp W)).sum = spp ∧
       ∀ rank : ℕ,
         (rank < spp % W → batchSize spp W rank = spp / W + 1) ∧
         (spp % W ≤ rank → batchSize spp W rank = spp / W)) ∧
    (∀ (rs : List WorkerResult) (q : ℚ),
       (lookupA q (aggregateCounts rs)).getD 0 =
         ((rs.filter (fun rec => rec.p_phys = q)).map
           (·.logical_error_counts)).sum) := by
  constructor
  · intro W spp hW
    constructor
    · have hsum : ((List.range W).map (batchSize spp W)).sum =
          ((List.range W).map (fun _ => spp / W)).sum +
            ((List.range W).map (fun k => if k < spp % W then 1 else 0)).sum := by
        rw [← sum_map_add_nat]
        rfl
      rw [hsum, sum_map_const_nat, sum_map_ite_lt, List.length_range]
      have hlt : spp % W < W := Nat.mod_lt spp (by omega)
      have := Nat.div_add_mod spp W
      omega
    · intro rank
      constructor
      · intro hlt
        simp [batchSize, hlt]
      · intro hge
        simp [batchSize, Nat.not_lt.mpr hge]
  · intro rs q
    rw [aggregateCounts, aggregate_fold_lookup rs [] q]
    simp [lookupA]

/-- A concrete list of worker results: two workers, two rates. -/
def rsEx : List WorkerResult :=
  [{ rank := 0, p_phys := 1/100, batch_size := 5, logical_error_counts := 2 },
   { rank := 0, p_phys := 1/50, batch_size := 5, logical_error_counts := 1 },
   { rank := 1, p_phys := 1/100, batch_size := 5, logical_error_counts := 3 },
   { rank := 1, p_phys := 1/50, batch_size := 5, logical_error_counts := 4 }]

/-- Witness for C8 at `W = 3`, `samples_per_point = 10`, and the concrete
result list `rsEx`. -/
theorem mpi_split_and_aggregate_witness :
    ((List.range 3).map (batchSize 10 3)).sum = 10 ∧
    batchSize 10 3 0 = 10 / 3 + 1 ∧
    batchSize 10 3 2 = 10 / 3 ∧
    (lookupA (1/100) (aggregateCounts rsEx)).getD 0 =
      ((rsEx.filter (fun rec => rec.p_phys = 1/100)).map
        (·.logical_error_counts)).sum :=
  ⟨(mpi_split_and_aggregate.1 3 10 (by norm_num)).1,
   ((mpi_split_and_aggregate.1 3 10 (by norm_num)).2 0).1 (by norm_num),
   ((mpi_split_and_aggregate.1 3 10 (by norm_num)).2 2).2 (by norm_num),
   mpi_split_and_aggregate.2 rsEx (1/100)⟩

/-- Characterization of the generator-1 with-flag block: some syndrome and
flag bits are measured, recorded as the fresh 1st-subround record, and
turned into the decision status; the 2nd-subround record and the counts are
untouched. -/
theorem measure_gen1_with_flag_spec (cfg : CktCfg) (r : RandStream)
    (tc : Option ErrorSpec) (pe : ℚ) (st : ProtoState) :
    ∃ (s f : Bool) (c : CktState),
      measure_gen1_with_flag cfg r tc pe st =
        { ckt := c,
          status := if f then .DET_RAISED_FLAG
                    else if s then .DET_NONZERO_SYNDROME
                    else .DET_UNRAISED_FLAG_AND_ZERO_SYNDROME,
          current := some (s, some f),
          rec1 := some [some (s, f)],
          rec2 := st.rec2, counts := st.counts } := by
  simp only [measure_gen1_with_flag, measure_ancilla_and_flag,
    update_syn_ex_status, currentPair, if_true]
  exact ⟨_, _, _, rfl⟩

/-- Characterization of the generator-2 with-flag block: the measured pair
is appended to the 1st-subround record. -/
theorem measure_gen2_with_flag_spec (cfg : CktCfg) (r : RandStream)
    (tc : Option ErrorSpec) (pe : ℚ) (st : ProtoState) :
    ∃ (s f : Bool) (c : CktState),
      measure_gen2_with_flag cfg r tc pe st =
        { ckt := c,
          status := if f then .DET_RAISED_FLAG
                    else if s then .DET_NONZERO_SYNDROME
                    else .DET_UNRAISED_FLAG_AND_ZERO_SYNDROME,
          current := some (s, some f),
          rec1 := some (st.rec1.getD [] ++ [some (s, f)]),
          rec2 := st.rec2, counts := st.counts } := by
  simp only [measure_gen2_with_flag, measure_ancilla_and_flag,
    update_syn_ex_status, currentPair, if_true]
  exact ⟨_, _, _, rfl⟩

/-- Characterization of the generator-3 with-flag block. -/
theorem measure_gen3_with_flag_spec (cfg : CktCfg) (r : RandStream)
    (tc : Option ErrorSpec) (pe : ℚ) (st : ProtoState) :
    ∃ (s f : Bool) (c : CktState),
      measure_gen3_with_flag cfg r tc pe st =
        { ckt := c,
          status := if f then .DET_RAISED_FLAG
                    else if s then .DET_NONZERO_SYNDROME
                    else .DET_UNRAISED_FLAG_AND_ZERO_SYNDROME,
          current := some (s, some f),
          rec1 := some (st.rec1.getD [] ++ [some (s, f)]),
          rec2 := st.rec2, counts := st.counts } := by
  simp only [measure_gen3_with_flag, measure_ancilla_and_flag,
    update_syn_ex_status, currentPair, if_true]
  exact ⟨_, _, _, rfl⟩

/-- Characterization of the generator-4 with-flag block. -/
theorem measure_gen4_with_flag_spec (cfg : CktCfg) (r : RandStream)
    (tc : Option ErrorSpec) (pe : ℚ) (st : ProtoState) :
    ∃ (s f : Bool) (c : CktState),
      measure_gen4_with_flag cfg r tc pe st =
        { ckt := c,
          status := if f then .DET_RAISED_FLAG
                    else if s then .DET_NONZERO_SYNDROME
                    else .DET_UNRAISED_FLAG_AND_ZERO_SYNDROME,
          current := some (s, some f),
          rec1 := some (st.rec1.getD [] ++ [some (s, f)]),
          rec2 := st.rec2, counts := st.counts } := by
  simp only [measure_gen4_with_flag, measure_ancilla_and_flag,
    update_syn_ex_status, currentPair, if_true]
  exact ⟨_, _, _, rfl⟩

/-- Characterization of an unflagged generator block: the status, the
1st-subround record and the counts are untouched, and one syndrome bit
starts the 2nd-subround record. -/
theorem noflag_gen1_spec (cfg : CktCfg) (r : RandStream)
    (tc : Option ErrorSpec) (pe : ℚ) (st : ProtoState) :
    (noflag_gen1 cfg r tc pe st).status = st.status ∧
    (noflag_gen1 cfg r tc pe st).rec1 = st.rec1 ∧
    (noflag_gen1 cfg r tc pe st).counts = st.counts ∧
    ∃ s : Bool, (noflag_gen1 cfg r tc pe st).rec2 = some [s] := by
  simp only [noflag_gen1, measure_ancilla_and_flag, currentSynd,
    Bool.false_eq_true, if_false]
  exact ⟨trivial, trivial, trivial, _, rfl⟩

/-- Characterization of the 2nd unflagged generator block: one syndrome bit
is appended to the 2nd-subround record. -/
theorem noflag_gen2_spec (cfg : CktCfg) (r : RandStream)
    (tc : Option ErrorSpec) (pe : ℚ) (st : ProtoState) :
    (noflag_gen2 cfg r tc pe st).status = st.status ∧
    (noflag_gen2 cfg r tc pe st).rec1 = st.rec1 ∧
    (noflag_gen2 cfg r tc pe st).counts = st.counts ∧
    ∃ s : Bool, (noflag_gen2 cfg r tc pe st).rec2 =
      some (st.rec2.getD [] ++ [s]) := by
  simp only [noflag_gen2, measure_ancilla_and_flag, currentSynd,
    Bool.false_eq_true, if_false]
  exact ⟨trivial, trivial, trivial, _, rfl⟩

/-- Characterization of the 3rd unflagged generator block. -/
theorem noflag_gen3_spec (cfg : CktCfg) (r : RandStream)
    (tc : Option ErrorSpec) (pe : ℚ) (st : ProtoState) :
    (noflag_gen3 cfg r tc pe st).status = st.status ∧
    (noflag_gen3 cfg r tc pe st).rec1 = st.rec1 ∧
    (noflag_gen3 cfg r tc pe st).counts = st.counts ∧
    ∃ s : Bool, (noflag_gen3 cfg r tc pe st).rec2 =
      some (st.rec2.getD [] ++ [s]) := by
  simp only [noflag_gen3, measure_ancilla_and_flag, currentSynd,
    Bool.false_eq_true, if_false]
  exact ⟨trivial, trivial, trivial, _, rfl⟩

/-- Characterization of the 4th unflagged generator block. -/
theorem noflag_gen4_spec (cfg : CktCfg) (r : RandStream)
    (tc : Option ErrorSpec) (pe : ℚ) (st : ProtoState) :
    (noflag_gen4 cfg r tc pe st).status = st.status ∧
    (noflag_gen4 cfg r tc pe st).rec1 = st.rec1 ∧
    (noflag_gen4 cfg r tc pe st).counts = st.counts ∧
    ∃ s : Bool, (noflag_gen4 cfg r tc pe st).rec2 =
      some (st.rec2.getD [] ++ [s]) := by
  simp only [noflag_gen4, measure_ancilla_and_flag, currentSynd,
    Bool.false_eq_true, if_false]
  exact ⟨trivial, trivial, trivial, _, rfl⟩

/-- The full without-flags remeasurement succeeds exactly at status
`MEAS_GEN_WITHOUT_FLAG` and then produces a 2nd-subround record of exactly
4 syndrome bits while preserving the status, the 1st-subround record and
the counts. -/
theorem measure_full_syndrome_without_flags_spec (cfg : CktCfg)
    (r : RandStream) (tc : Option ErrorSpec) (pe : ℚ) (st : ProtoState)
    (hst : st.status = .MEAS_GEN_WITHOUT_FLAG) :
    ∃ (out : ProtoState) (a b c d : Bool),
      measure_full_syndrome_without_flags cfg r tc pe st = .ok out ∧
      out.status = st.status ∧ out.rec1 = st.rec1 ∧ out.counts = st.counts ∧
      out.rec2 = some [a, b, c, d] := by
  unfold measure_full_syndrome_without_flags
  rw [if_pos hst]
  obtain ⟨h1s, h1r1, h1c, s1, h1r2⟩ := noflag_gen1_spec cfg r tc pe st
  obtain ⟨h2s, h2r1, h2c, s2, h2r2⟩ :=
    noflag_gen2_spec cfg r tc pe (noflag_gen1 cfg r tc pe st)
  obtain ⟨h3s, h3r1, h3c, s3, h3r2⟩ :=
    noflag_gen3_spec cfg r tc pe
      (noflag_gen2 cfg r tc pe (noflag_gen1 cfg r tc pe st))
  obtain ⟨h4s, h4r1, h4c, s4, h4r2⟩ :=
    noflag_gen4_spec cfg r tc pe
      (noflag_gen3 cfg r tc pe
        (noflag_gen2 cfg r tc pe (noflag_gen1 cfg r tc pe st)))
  refine ⟨_, s1, s2, s3, s4, rfl, ?_, ?_, ?_, ?_⟩
  · rw [h4s, h3s, h2s, h1s]
  · rw [h4r1, h3r1, h2r1, h1r1]
  · rw [h4c, h3c, h2c, h1c]
  · rw [h4r2, h3r2, h2r2, h1r2]
    simp

/-- The protocol state right after the with-flag measurement of generator 1
in a run of `syndrome_extraction` (with the given `test_config`). -/
def gen1_state (cfg : CktCfg) (r : RandStream) (tc : Option ErrorSpec)
    (pe : ℚ) (st : ProtoState) : ProtoState :=
  measure_gen1_with_flag cfg r tc pe (extraction_entry st)

/-- The state after the with-flag measurement of generator 2, in a run where
generator 1 came back clear. -/
def gen2_state (cfg : CktCfg) (r : RandStream) (tc : Option ErrorSpec)
    (pe : ℚ) (st : ProtoState) : ProtoState :=
  measure_gen2_with_flag cfg r tc pe
    { gen1_state cfg r tc pe st with status := .MEAS_GEN_WITH_FLAG }

/-- The state after the with-flag measurement of generator 3, in a run where
generators 1 and 2 came back clear. -/
def gen3_state (cfg : CktCfg) (r : RandStream) (tc : Option ErrorSpec)
    (pe : ℚ) (st : ProtoState) : ProtoState :=
  measure_gen3_with_flag cfg r tc pe
    { gen2_state cfg r tc pe st with status := .MEAS_GEN_WITH_FLAG }

/-- The state after the with-flag measurement of generator 4, in a run where
generators 1 to 3 came back clear. -/
def gen4_state (cfg : CktCfg) (r : RandStream) (tc : Option ErrorSpec)
    (pe : ℚ) (st : ProtoState) : ProtoState :=
  measure_gen4_with_flag cfg r tc pe
    { gen3_state cfg r tc pe st with status := .MEAS_GEN_WITH_FLAG }

theorem decide_after_gen_continue (cfg : CktCfg) (r : RandStream)
    (tc : Option ErrorSpec) (pe : ℚ) (k : ℕ)
    (cont : ProtoState → Except ProtoErr ProtoState) (st : ProtoState)
    (hs : st.status = .DET_UNRAISED_FLAG_AND_ZERO_SYNDROME) :
    decide_after_gen cfg r tc pe k cont st =
      cont { st with status := .MEAS_GEN_WITH_FLAG } := by
  simp [decide_after_gen, hs]

theorem decide_after_gen_remeasure (cfg : CktCfg) (r : RandStream)
    (tc : Option ErrorSpec) (pe : ℚ) (k : ℕ)
    (cont : ProtoState → Except ProtoErr ProtoState) (st : ProtoState)
    (hs : st.status = .DET_RAISED_FLAG ∨ st.status = .DET_NONZERO_SYNDROME) :
    decide_after_gen cfg r tc pe k cont st =
      match measure_full_syndrome_without_flags cfg r tc pe
          { st with rec1 := some (st.rec1.getD [] ++ List.replicate k none),
                    status := .MEAS_GEN_WITHOUT_FLAG } with
      | .ok st2 => .ok { st2 with status := .IDLE }
      | .error e => .error e := by
  rcases hs with hs | hs <;> simp [decide_after_gen, hs]

theorem syndrome_extraction_run (cfg : CktCfg) (r : RandStream)
    (tc : Option ErrorSpec) (pe : ℚ) (st : ProtoState)
    (hidle : st.status = .IDLE) (htc : tcTriggersLoc0 tc = false) :
    syndrome_extraction cfg r tc pe st =
      decide_after_gen cfg r tc pe 3 (fun s1 =>
        decide_after_gen cfg r tc pe 2 (fun s2 =>
          decide_after_gen cfg r tc pe 1 (fun s3 =>
            final_decision cfg r tc pe
              (measure_gen4_with_flag cfg r tc pe s3))
            (measure_gen3_with_flag cfg r tc pe s2))
          (measure_gen2_with_flag cfg r tc pe s1))
        (gen1_state cfg r tc pe st) := by
  unfold syndrome_extraction gen1_state
  rw [if_pos hidle, htc]
  simp

theorem final_decision_clean (cfg : CktCfg) (r : RandStream)
    (tc : Option ErrorSpec) (pe : ℚ) (st : ProtoState)
    (hs : st.status = .DET_UNRAISED_FLAG_AND_ZERO_SYNDROME) :
    final_decision cfg r tc pe st = .ok { st with status := .IDLE } := by
  simp [final_decision, hs]

/-- Characterization of a run in which all four flagged generator
measurements return syndrome 0 and flag 0: the extraction succeeds with
terminal status `IDLE`, a 1st-subround record of exactly 4 real pairs, and
no 2nd-subround record. -/
theorem clean_run_characterization (cfg : CktCfg) (r : RandStream)
    (pe : ℚ) (st : ProtoState) (hidle : st.status = .IDLE)
    (h1c : (gen1_state cfg r none pe st).current = some (false, some false))
    (h2c : (gen2_state cfg r none pe st).current = some (false, some false))
    (h3c : (gen3_state cfg r none pe st).current = some (false, some false))
    (h4c : (gen4_state cfg r none pe st).current = some (false, some false)) :
    syndrome_extraction cfg r none pe st =
      .ok { gen4_state cfg r none pe st with status := .IDLE } ∧
    (gen4_state cfg r none pe st).rec1 =
      some [some (false, false), some (false, false), some (false, false),
            some (false, false)] ∧
    (gen4_state cfg r none pe st).rec2 = none := by
  obtain ⟨s1v, f1v, c1, h1⟩ :=
    measure_gen1_with_flag_spec cfg r none pe (extraction_entry st)
  have hg1 : gen1_state cfg r none pe st = _ := h1
  rw [hg1] at h1c
  simp only [Option.some.injEq, Prod.mk.injEq] at h1c
  obtain ⟨hs1, hf1⟩ := h1c
  subst hs1
  subst hf1
  obtain ⟨s2v, f2v, c2, h2⟩ := measure_gen2_with_flag_spec cfg r none pe
    { gen1_state cfg r none pe st with status := .MEAS_GEN_WITH_FLAG }
  have hg2 : gen2_state cfg r none pe st = _ := h2
  rw [hg2] at h2c
  simp only [Option.some.injEq, Prod.mk.injEq] at h2c
  obtain ⟨hs2, hf2⟩ := h2c
  subst hs2
  subst hf2
  obtain ⟨s3v, f3v, c3, h3⟩ := measure_gen3_with_flag_spec cfg r none pe
    { gen2_state cfg r none pe st with status := .MEAS_GEN_WITH_FLAG }
  have hg3 : gen3_state cfg r none pe st = _ := h3
  rw [hg3] at h3c
  simp only [Option.some.injEq, Prod.mk.injEq] at h3c
  obtain ⟨hs3, hf3⟩ := h3c
  subst hs3
  subst hf3
  obtain ⟨s4v, f4v, c4, h4⟩ := measure_gen4_with_flag_spec cfg r none pe
    { gen3_state cfg r none pe st with status := .MEAS_GEN_WITH_FLAG }
  have hg4 : gen4_state cfg r none pe st = _ := h4
  rw [hg4] at h4c
  simp only [Option.some.injEq, Prod.mk.injEq] at h4c
  obtain ⟨hs4, hf4⟩ := h4c
  subst hs4
  subst hf4
  refine ⟨?_, ?_, ?_⟩
  · rw [syndrome_extraction_run cfg r none pe st hidle rfl,
      decide_after_gen_continue cfg r none pe 3 _ _ (by rw [hg1]; simp),
      show measure_gen2_with_flag cfg r none pe
          { gen1_state cfg r none pe st with status := .MEAS_GEN_WITH_FLAG } =
          gen2_state cfg r none pe st from rfl,
      decide_after_gen_continue cfg r none pe 2 _ _ (by rw [hg2]; simp),
      show measure_gen3_with_flag cfg r none pe
          { gen2_state cfg r none pe st with status := .MEAS_GEN_WITH_FLAG } =
          gen3_state cfg r none pe st from rfl,
      decide_after_gen_continue cfg r none pe 1 _ _ (by rw [hg3]; simp),
      show measure_gen4_with_flag cfg r none pe
          { gen3_state cfg r none pe st with status := .MEAS_GEN_WITH_FLAG } =
          gen4_state cfg r none pe st from rfl,
      final_decision_clean cfg r none pe _ (by rw [hg4]; simp)]
  · rw [hg4, hg3, hg2, hg1]
    simp
  · rw [hg4, hg3, hg2, hg1]
    simp [extraction_entry]

/-- C4: in a run whose generator-1 with-flag measurement returns syndrome 0
and flag 0 and whose generator-2 measurement raises the flag, the finished
1st-subround record has exactly 4 pairs (2 real, then 2 sentinels) and the
2nd-subround record has exactly 4 bits; in a run where all four flagged
measurements return syndrome 0 and flag 0 the terminal status is `IDLE`,
the 1st-subround record has exactly 4 real pairs and no 2nd-subround record
exists. -/
theorem flag_and_clean_record_shapes (cfg : CktCfg) (r : RandStream)
    (pe : ℚ) (st : ProtoState) (hidle : st.status = .IDLE) :
    (∀ s2 : Bool,
       (gen1_state cfg r none pe st).current = some (false, some false) →
       (gen2_state cfg r none pe st).current = some (s2, some true) →
       ∃ out, syndrome_extraction cfg r none pe st = .ok out ∧
         out.rec1 = some [some (false, false), some (s2, true), none, none] ∧
         ∃ l, out.rec2 = some l ∧ l.length = 4) ∧
    ((gen1_state cfg r none pe st).current = some (false, some false) →
     (gen2_state cfg r none pe st).current = some (false, some false) →
     (gen3_state cfg r none pe st).current = some (false, some false) →
     (gen4_state cfg r none pe st).current = some (false, some false) →
     syndrome_extraction cfg r none pe st =
       .ok { gen4_state cfg r none pe st with status := .IDLE } ∧
     (gen4_state cfg r none pe st).rec1 =
       some [some (false, false), some (false, false), some (false, false),
             some (false, false)] ∧
     (gen4_state cfg r none pe st).rec2 = none) := by
  obtain ⟨s1v, f1v, c1, h1⟩ :=
    measure_gen1_with_flag_spec cfg r none pe (extraction_entry st)
  have hg1 : gen1_state cfg r none pe st = _ := h1
  constructor
  · intro s2 h1c h2c
    rw [hg1] at h1c
    simp only [Option.some.injEq, Prod.mk.injEq] at h1c
    obtain ⟨hs1, hf1⟩ := h1c
    subst hs1
    subst hf1
    obtain ⟨s2v, f2v, c2, h2⟩ := measure_gen2_with_flag_spec cfg r none pe
      { gen1_state cfg r none pe st with status := .MEAS_GEN_WITH_FLAG }
    have hg2 : gen2_state cfg r none pe st = _ := h2
    rw [hg2] at h2c
    simp only [Option.some.injEq, Prod.mk.injEq] at h2c
    obtain ⟨hs2, hf2⟩ := h2c
    subst hs2
    subst hf2
    rw [syndrome_extraction_run cfg r none pe st hidle rfl,
      decide_after_gen_continue cfg r none pe 3 _ _ (by rw [hg1]; simp),
      show measure_gen2_with_flag cfg r none pe
          { gen1_state cfg r none pe st with status := .MEAS_GEN_WITH_FLAG } =
          gen2_state cfg r none pe st from rfl,
      decide_after_gen_remeasure cfg r none pe 2 _ _ (Or.inl (by rw [hg2]; simp))]
    obtain ⟨out, a, b, c, d, hok, houts, houtr1, houtc, houtr2⟩ :=
      measure_full_syndrome_without_flags_spec cfg r none pe
        { gen2_state cfg r none pe st with
            rec1 := some ((gen2_state cfg r none pe st).rec1.getD [] ++
              List.replicate 2 none),
            status := .MEAS_GEN_WITHOUT_FLAG } rfl
    rw [hok]
    refine ⟨{ out with status := .IDLE }, rfl, ?_, [a, b, c, d], houtr2, rfl⟩
    have : (gen2_state cfg r none pe st).rec1 =
        some [some (false, false), some (s2v, true)] := by
      rw [hg2, hg1]
      simp
    rw [houtr1]
    simp [this]
  · intro h1c h2c h3c h4c
    exact clean_run_characterization cfg r pe st hidle h1c h2c h3c h4c

/-- A fresh `IDLE` protocol state of the five-qubit code. -/
def stp0 : ProtoState :=
  { ckt := cst0, status := .IDLE, current := none, rec1 := none,
    rec2 := none, counts := [0] }

/-- A draw stream whose only firing fault is a Z-on-flag injection at the
second flag CNOT of generator 2 (draw 14 fires the depolarizing fault at
rate 1/2, draw 15 selects the Z-identity pair). -/
def rFlag2 : RandStream :=
  fun i => if i = 14 then 0 else if i = 15 then 3/4 else 9/10

set_option maxRecDepth 100000 in
/-- Witness for C4: a concrete flag-on-generator-2 run and a concrete
all-clear run of the five-qubit protocol. -/
theorem flag_and_clean_record_shapes_witness :
    (gen1_state fiveQubitChaoCfg rFlag2 none (1/2) stp0).current =
      some (false, some false) ∧
    (gen2_state fiveQubitChaoCfg rFlag2 none (1/2) stp0).current =
      some (false, some true) ∧
    (∃ out, syndrome_extraction fiveQubitChaoCfg rFlag2 none (1/2) stp0 =
        .ok out ∧
      out.rec1 = some [some (false, false), some (false, true), none, none] ∧
      ∃ l, out.rec2 = some l ∧ l.length = 4) ∧
    (gen1_state fiveQubitChaoCfg constHalfStream none 0 stp0).current =
      some (false, some false) ∧
    (gen4_state fiveQubitChaoCfg constHalfStream none 0 stp0).current =
      some (false, some false) ∧
    (syndrome_extraction fiveQubitChaoCfg constHalfStream none 0 stp0 =
       .ok { gen4_state fiveQubitChaoCfg constHalfStream none 0 stp0 with
               status := .IDLE } ∧
     (gen4_state fiveQubitChaoCfg constHalfStream none 0 stp0).rec1 =
       some [some (false, false), some (false, false), some (false, false),
             some (false, false)] ∧
     (gen4_state fiveQubitChaoCfg constHalfStream none 0 stp0).rec2 = none) :=
  ⟨by decide, by decide,
   (flag_and_clean_record_shapes fiveQubitChaoCfg rFlag2 (1/2) stp0 rfl).1
     false (by decide) (by decide),
   by decide, by decide,
   (flag_and_clean_record_shapes fiveQubitChaoCfg constHalfStream 0 stp0
     rfl).2 (by decide) (by decide) (by decide) (by decide)⟩

theorem decoderLookup_rec2_none (tbl : SyndromeLUT) (rec1 : Option Rec1Key) :
    decoderLookup tbl rec1 none = none := by
  unfold decoderLookup
  cases rec1 with
  | none => rfl
  | some k1 => cases hl : lookupA k1 tbl <;> simp [hl]

/-- C10: a run of the protocol in which all four flagged measurements come
back clear leaves the 2nd-subround record absent, and a subsequent
`syndrome_decoding` is a no-op for every lookup table — a correction can
only ever be applied in rounds where the without-flag remeasurement ran. -/
theorem clean_round_decoding_noop (cfg : CktCfg) (r : RandStream) (pe : ℚ)
    (st : ProtoState) (hidle : st.status = .IDLE)
    (h1c : (gen1_state cfg r none pe st).current = some (false, some false))
    (h2c : (gen2_state cfg r none pe st).current = some (false, some false))
    (h3c : (gen3_state cfg r none pe st).current = some (false, some false))
    (h4c : (gen4_state cfg r none pe st).current = some (false, some false)) :
    ∃ out, syndrome_extraction cfg r none pe st = .ok out ∧
      out.rec2 = none ∧
      ∀ tbl : SyndromeLUT, syndrome_decoding cfg tbl out = out := by
  obtain ⟨hrun, hrec1, hrec2⟩ :=
    clean_run_characterization cfg r pe st hidle h1c h2c h3c h4c
  refine ⟨_, hrun, hrec2, fun tbl => ?_⟩
  have hmiss : decoderLookup tbl
      ({ gen4_state cfg r none pe st with status := .IDLE }).rec1
      ({ gen4_state cfg r none pe st with status := .IDLE }).rec2 = none := by
    have : ({ gen4_state cfg r none pe st with
        status := .IDLE } : ProtoState).rec2 = none := hrec2
    rw [this]
    exact decoderLookup_rec2_none tbl _
  simp [syndrome_decoding, hmiss]

set_option maxRecDepth 100000 in
/-- Witness for C10: the concrete all-clear run at rate 0 under the
constant one-half stream. -/
theorem clean_round_decoding_noop_witness :
    (gen1_state fiveQubitChaoCfg constHalfStream none 0 stp0).current =
      some (false, some false) ∧
    (gen3_state fiveQubitChaoCfg constHalfStream none 0 stp0).current =
      some (false, some false) ∧
    ∃ out, syndrome_extraction fiveQubitChaoCfg constHalfStream none 0 stp0 =
        .ok out ∧
      out.rec2 = none ∧
      ∀ tbl : SyndromeLUT, syndrome_decoding fiveQubitChaoCfg tbl out = out :=
  ⟨by decide, by decide,
   clean_round_decoding_noop fiveQubitChaoCfg constHalfStream 0 stp0 rfl
     (by decide) (by decide) (by decide) (by decide)⟩

/-- A directed override targeting location 0, the manual-injection point at
the start of `syndrome_extraction`. -/
def tcLoc0 : ErrorSpec :=
  { inject_error := true, error_loc := some 0,
    qubit_idx1 := 0, qubit_idx2 := 5, pauli_idx1 := 3, pauli_idx2 := 0 }

set_option maxRecDepth 100000 in
/-- C5 (code bug): the two entry-state assertions fire exactly on a wrong
status, and a plain run raises nothing — but a location-0 override makes
`syndrome_extraction` raise an `AttributeError` even from a correct `IDLE`
entry state, because line 607 calls `self.two_qubit_pauli_error`, a method
that exists only on the inner circuit object. -/
theorem syndrome_extraction_loc0_attribute_error :
    stp0.status = .IDLE ∧
    syndrome_extraction fiveQubitChaoCfg constHalfStream (some tcLoc0) 0 stp0 =
      .error .attributeError ∧
    syndrome_extraction fiveQubitChaoCfg constHalfStream none 0
      { stp0 with status := .MEAS_GEN_WITH_FLAG } = .error .statusNotIdle ∧
    measure_full_syndrome_without_flags fiveQubitChaoCfg constHalfStream none 0
      stp0 = .error .statusNotMeasWithoutFlag ∧
    (syndrome_extraction fiveQubitChaoCfg constHalfStream none 0
      stp0).isOk = true :=
  ⟨rfl, rfl, rfl, rfl, by decide⟩

set_option maxHeartbeats 2000000 in
theorem measure_gen1_with_flag_irrel (cfg : CktCfg) {r r2 : RandStream}
    (hr : validStream r) (hr2 : validStream r2) (tc : Option ErrorSpec)
    {pe : ℚ} (hp : pe ≤ 0) (h2 : cfg.sTwo * pe ≤ 0)
    (hprep : cfg.sPrep * pe ≤ 0) (hmeas : cfg.sMeas * pe ≤ 0)
    (st : ProtoState) :
    measure_gen1_with_flag cfg r tc pe st =
      measure_gen1_with_flag cfg r2 tc pe st := by
  simp only [measure_gen1_with_flag, gen1_flag_circuit,
    measure_ancilla_and_flag, if_true,
    one_stochastic_pauli_error_data_qubits_nonpos cfg hr hp,
    one_stochastic_pauli_error_data_qubits_nonpos cfg hr2 hp,
    xnot_nonpos cfg hr h2, xnot_nonpos cfg hr2 h2,
    cnot_nonpos cfg hr h2, cnot_nonpos cfg hr2 h2,
    measure_Z_basis_nonpos cfg hr hmeas, measure_Z_basis_nonpos cfg hr2 hmeas,
    measure_X_basis_nonpos cfg hr hmeas, measure_X_basis_nonpos cfg hr2 hmeas,
    reset_ancilla_nonpos cfg hr hprep, reset_ancilla_nonpos cfg hr2 hprep,
    reset_flag_nonpos cfg hr hprep, reset_flag_nonpos cfg hr2 hprep]

set_option maxHeartbeats 2000000 in
theorem measure_gen2_with_flag_irrel (cfg : CktCfg) {r r2 : RandStream}
    (hr : validStream r) (hr2 : validStream r2) (tc : Option ErrorSpec)
    {pe : ℚ} (hp : pe ≤ 0) (h2 : cfg.sTwo * pe ≤ 0)
    (hprep : cfg.sPrep * pe ≤ 0) (hmeas : cfg.sMeas * pe ≤ 0)
    (st : ProtoState) :
    measure_gen2_with_flag cfg r tc pe st =
      measure_gen2_with_flag cfg r2 tc pe st := by
  simp only [measure_gen2_with_flag, gen2_flag_circuit,
    measure_ancilla_and_flag, if_true,
    one_stochastic_pauli_error_data_qubits_nonpos cfg hr hp,
    one_stochastic_pauli_error_data_qubits_nonpos cfg hr2 hp,
    xnot_nonpos cfg hr h2, xnot_nonpos cfg hr2 h2,
    cnot_nonpos cfg hr h2, cnot_nonpos cfg hr2 h2,
    measure_Z_basis_nonpos cfg hr hmeas, measure_Z_basis_nonpos cfg hr2 hmeas,
    measure_X_basis_nonpos cfg hr hmeas, measure_X_basis_nonpos cfg hr2 hmeas,
    reset_ancilla_nonpos cfg hr hprep, reset_ancilla_nonpos cfg hr2 hprep,
    reset_flag_nonpos cfg hr hprep, reset_flag_nonpos cfg hr2 hprep]

set_option maxHeartbeats 2000000 in
theorem measure_gen3_with_flag_irrel (cfg : CktCfg) {r r2 : RandStream}
    (hr : validStream r) (hr2 : validStream r2) (tc : Option ErrorSpec)
    {pe : ℚ} (hp : pe ≤ 0) (h2 : cfg.sTwo * pe ≤ 0)
    (hprep : cfg.sPrep * pe ≤ 0) (hmeas : cfg.sMeas * pe ≤ 0)
    (st : ProtoState) :
    measure_gen3_with_flag cfg r tc pe st =
      measure_gen3_with_flag cfg r2 tc pe st := by
  simp only [measure_gen3_with_flag, gen3_flag_circuit,
    measure_ancilla_and_flag, if_true,
    one_stochastic_pauli_error_data_qubits_nonpos cfg hr hp,
    one_stochastic_pauli_error_data_qubits_nonpos cfg hr2 hp,
    xnot_nonpos cfg hr h2, xnot_nonpos cfg hr2 h2,
    cnot_nonpos cfg hr h2, cnot_nonpos cfg hr2 h2,
    measure_Z_basis_nonpos cfg hr hmeas, measure_Z_basis_nonpos cfg hr2 hmeas,
    measure_X_basis_nonpos cfg hr hmeas, measure_X_basis_nonpos cfg hr2 hmeas,
    reset_ancilla_nonpos cfg hr hprep, reset_ancilla_nonpos cfg hr2 hprep,
    reset_flag_nonpos cfg hr hprep, reset_flag_nonpos cfg hr2 hprep]

set_option maxHeartbeats 2000000 in
theorem measure_gen4_with_flag_irrel (cfg : CktCfg) {r r2 : RandStream}
    (hr : validStream r) (hr2 : validStream r2) (tc : Option ErrorSpec)
    {pe : ℚ} (hp : pe ≤ 0) (h2 : cfg.sTwo * pe ≤ 0)
    (hprep : cfg.sPrep * pe ≤ 0) (hmeas : cfg.sMeas * pe ≤ 0)
    (st : ProtoState) :
    measure_gen4_with_flag cfg r tc pe st =
      measure_gen4_with_flag cfg r2 tc pe st := by
  simp only [measure_gen4_with_flag, gen4_flag_circuit,
    measure_ancilla_and_flag, if_true,
    one_stochastic_pauli_error_data_qubits_nonpos cfg hr hp,
    one_stochastic_pauli_error_data_qubits_nonpos cfg hr2 hp,
    xnot_nonpos cfg hr h2, xnot_nonpos cfg hr2 h2,
    cnot_nonpos cfg hr h2, cnot_nonpos cfg hr2 h2,
    measure_Z_basis_nonpos cfg hr hmeas, measure_Z_basis_nonpos cfg hr2 hmeas,
    measure_X_basis_nonpos cfg hr hmeas, measure_X_basis_nonpos cfg hr2 hmeas,
    reset_ancilla_nonpos cfg hr hprep, reset_ancilla_nonpos cfg hr2 hprep,
    reset_flag_nonpos cfg hr hprep, reset_flag_nonpos cfg hr2 hprep]

set_option maxHeartbeats 2000000 in
theorem noflag_gen1_irrel (cfg : CktCfg) {r r2 : RandStream}
    (hr : validStream r) (hr2 : validStream r2) (tc : Option ErrorSpec)
    {pe : ℚ} (hp : pe ≤ 0) (h2 : cfg.sTwo * pe ≤ 0)
    (hprep : cfg.sPrep * pe ≤ 0) (hmeas : cfg.sMeas * pe ≤ 0)
    (st : ProtoState) :
    noflag_gen1 cfg r tc pe st = noflag_gen1 cfg r2 tc pe st := by
  simp only [noflag_gen1, measure_ancilla_and_flag, Bool.false_eq_true,
    if_false,
    one_stochastic_pauli_error_data_qubits_nonpos cfg hr hp,
    one_stochastic_pauli_error_data_qubits_nonpos cfg hr2 hp,
    xnot_nonpos cfg hr h2, xnot_nonpos cfg hr2 h2,
    cnot_nonpos cfg hr h2, cnot_nonpos cfg hr2 h2,
    measure_Z_basis_nonpos cfg hr hmeas, measure_Z_basis_nonpos cfg hr2 hmeas,
    reset_ancilla_nonpos cfg hr hprep, reset_ancilla_nonpos cfg hr2 hprep]

set_option maxHeartbeats 2000000 in
theorem noflag_gen2_irrel (cfg : CktCfg) {r r2 : RandStream}
    (hr : validStream r) (hr2 : validStream r2) (tc : Option ErrorSpec)
    {pe : ℚ} (hp : pe ≤ 0) (h2 : cfg.sTwo * pe ≤ 0)
    (hprep : cfg.sPrep * pe ≤ 0) (hmeas : cfg.sMeas * pe ≤ 0)
    (st : ProtoState) :
    noflag_gen2 cfg r tc pe st = noflag_gen2 cfg r2 tc pe st := by
  simp only [noflag_gen2, measure_ancilla_and_flag, Bool.false_eq_true,
    if_false,
    one_stochastic_pauli_error_data_qubits_nonpos cfg hr hp,
    one_stochastic_pauli_error_data_qubits_nonpos cfg hr2 hp,
    xnot_nonpos cfg hr h2, xnot_nonpos cfg hr2 h2,
    cnot_nonpos cfg hr h2, cnot_nonpos cfg hr2 h2,
    measure_Z_basis_nonpos cfg hr hmeas, measure_Z_basis_nonpos cfg hr2 hmeas,
    reset_ancilla_nonpos cfg hr hprep, reset_ancilla_nonpos cfg hr2 hprep]

set_option maxHeartbeats 2000000 in
theorem noflag_gen3_irrel (cfg : CktCfg) {r r2 : RandStream}
    (hr : validStream r) (hr2 : validStream r2) (tc : Option ErrorSpec)
    {pe : ℚ} (hp : pe ≤ 0) (h2 : cfg.sTwo * pe ≤ 0)
    (hprep : cfg.sPrep * pe ≤ 0) (hmeas : cfg.sMeas * pe ≤ 0)
    (st : ProtoState) :
    noflag_gen3 cfg r tc pe st = noflag_gen3 cfg r2 tc pe st := by
  simp only [noflag_gen3, measure_ancilla_and_flag, Bool.false_eq_true,
    if_false,
    one_stochastic_pauli_error_data_qubits_nonpos cfg hr hp,
    one_stochastic_pauli_error_data_qubits_nonpos cfg hr2 hp,
    xnot_nonpos cfg hr h2, xnot_nonpos cfg hr2 h2,
    cnot_nonpos cfg hr h2, cnot_nonpos cfg hr2 h2,
    measure_Z_basis_nonpos cfg hr hmeas, measure_Z_basis_nonpos cfg hr2 hmeas,
    reset_ancilla_nonpos cfg hr hprep, reset_ancilla_nonpos cfg hr2 hprep]

set_option maxHeartbeats 2000000 in
theorem noflag_gen4_irrel (cfg : CktCfg) {r r2 : RandStream}
    (hr : validStream r) (hr2 : validStream r2) (tc : Option ErrorSpec)
    {pe : ℚ} (hp : pe ≤ 0) (h2 : cfg.sTwo * pe ≤ 0)
    (hprep : cfg.sPrep * pe ≤ 0) (hmeas : cfg.sMeas * pe ≤ 0)
    (st : ProtoState) :
    noflag_gen4 cfg r tc pe st = noflag_gen4 cfg r2 tc pe st := by
  simp only [noflag_gen4, measure_ancilla_and_flag, Bool.false_eq_true,
    if_false,
    one_stochastic_pauli_error_data_qubits_nonpos cfg hr hp,
    one_stochastic_pauli_error_data_qubits_nonpos cfg hr2 hp,
    xnot_nonpos cfg hr h2, xnot_nonpos cfg hr2 h2,
    cnot_nonpos cfg hr h2, cnot_nonpos cfg hr2 h2,
    measure_Z_basis_nonpos cfg hr hmeas, measure_Z_basis_nonpos cfg hr2 hmeas,
    reset_ancilla_nonpos cfg hr hprep, reset_ancilla_nonpos cfg hr2 hprep]

theorem measure_full_syndrome_without_flags_irrel (cfg : CktCfg)
    {r r2 : RandStream} (hr : validStream r) (hr2 : validStream r2)
    (tc : Option ErrorSpec) {pe : ℚ} (hp : pe ≤ 0) (h2 : cfg.sTwo * pe ≤ 0)
    (hprep : cfg.sPrep * pe ≤ 0) (hmeas : cfg.sMeas * pe ≤ 0)
    (st : ProtoState) :
    measure_full_syndrome_without_flags cfg r tc pe st =
      measure_full_syndrome_without_flags cfg r2 tc pe st := by
  unfold measure_full_syndrome_without_flags
  rw [noflag_gen1_irrel cfg hr hr2 tc hp h2 hprep hmeas,
    noflag_gen2_irrel cfg hr hr2 tc hp h2 hprep hmeas,
    noflag_gen3_irrel cfg hr hr2 tc hp h2 hprep hmeas,
    noflag_gen4_irrel cfg hr hr2 tc hp h2 hprep hmeas]

theorem decide_after_gen_irrel (cfg : CktCfg) {r r2 : RandStream}
    (hr : validStream r) (hr2 : validStream r2) (tc : Option ErrorSpec)
    {pe : ℚ} (hp : pe ≤ 0) (h2 : cfg.sTwo * pe ≤ 0)
    (hprep : cfg.sPrep * pe ≤ 0) (hmeas : cfg.sMeas * pe ≤ 0) (k : ℕ)
    (cont cont2 : ProtoState → Except ProtoErr ProtoState)
    (hcont : ∀ s, cont s = cont2 s) (st : ProtoState) :
    decide_after_gen cfg r tc pe k cont st =
      decide_after_gen cfg r2 tc pe k cont2 st := by
  unfold decide_after_gen
  rw [measure_full_syndrome_without_flags_irrel cfg hr hr2 tc hp h2 hprep hmeas,
    hcont]

theorem final_decision_irrel (cfg : CktCfg) {r r2 : RandStream}
    (hr : validStream r) (hr2 : validStream r2) (tc : Option ErrorSpec)
    {pe : ℚ} (hp : pe ≤ 0) (h2 : cfg.sTwo * pe ≤ 0)
    (hprep : cfg.sPrep * pe ≤ 0) (hmeas : cfg.sMeas * pe ≤ 0)
    (st : ProtoState) :
    final_decision cfg r tc pe st = final_decision cfg r2 tc pe st := by
  unfold final_decision
  rw [measure_full_syndrome_without_flags_irrel cfg hr hr2 tc hp h2 hprep hmeas]

theorem syndrome_extraction_irrel (cfg : CktCfg) {r r2 : RandStream}
    (hr : validStream r) (hr2 : validStream r2) (tc : Option ErrorSpec)
    {pe : ℚ} (hp : pe ≤ 0) (h2 : cfg.sTwo * pe ≤ 0)
    (hprep : cfg.sPrep * pe ≤ 0) (hmeas : cfg.sMeas * pe ≤ 0)
    (st : ProtoState) :
    syndrome_extraction cfg r tc pe st =
      syndrome_extraction cfg r2 tc pe st := by
  unfold syndrome_extraction
  by_cases hidle : st.status = .IDLE
  · rw [if_pos hidle, if_pos hidle]
    by_cases htc : tcTriggersLoc0 tc
    · rw [if_pos htc, if_pos htc]
    · rw [if_neg htc, if_neg htc,
        measure_gen1_with_flag_irrel cfg hr hr2 tc hp h2 hprep hmeas]
      refine decide_after_gen_irrel cfg hr hr2 tc hp h2 hprep hmeas 3 _ _
        (fun s1 => ?_) _
      rw [measure_gen2_with_flag_irrel cfg hr hr2 tc hp h2 hprep hmeas]
      refine decide_after_gen_irrel cfg hr hr2 tc hp h2 hprep hmeas 2 _ _
        (fun s2 => ?_) _
      rw [measure_gen3_with_flag_irrel cfg hr hr2 tc hp h2 hprep hmeas]
      refine decide_after_gen_irrel cfg hr hr2 tc hp h2 hprep hmeas 1 _ _
        (fun s3 => ?_) _
      rw [measure_gen4_with_flag_irrel cfg hr hr2 tc hp h2 hprep hmeas]
      exact final_decision_irrel cfg hr hr2 tc hp h2 hprep hmeas _
  · rw [if_neg hidle, if_neg hidle]

theorem scale_mul_nonpos {s p : ℚ} (hs : 0 ≤ s) (hp : p ≤ 0) : s * p ≤ 0 :=
  (mul_le_mul_of_nonneg_left hp hs).trans_eq (mul_zero s)

/-- C2: the resynchronization cycle run inside `logical_error_tracking`
(one extraction at `p_err = -1` plus the table decoding) is fault-free:
its outcome is the same for every valid sequence of random draws, every
engine operation at a nonpositive rate performs exactly the noiseless
reference semantics on the accumulator (no preparation or gate fault is
injected), and measurement outcomes are read from the accumulator without
any flip (no measurement fault). -/
theorem resync_cycle_error_free (cfg : CktCfg) (tbl : SyndromeLUT)
    (hs2 : 0 ≤ cfg.sTwo) (hs1 : 0 ≤ cfg.sSingle) (hsp : 0 ≤ cfg.sPrep)
    (hsm : 0 ≤ cfg.sMeas) :
    (∀ {r1 r2 : RandStream}, validStream r1 → validStream r2 →
       ∀ st : ProtoState, resyncCycle cfg r1 tbl st = resyncCycle cfg r2 tbl st) ∧
    (∀ {r : RandStream}, validStream r → ∀ {p : ℚ}, p ≤ 0 →
       ∀ (op : EngineOp) (st : CktState),
       (runOp cfg r p op st).acc = noiselessOp cfg op st.acc) ∧
    (∀ {r : RandStream}, validStream r → ∀ {p : ℚ}, p ≤ 0 →
       ∀ (q : ℕ) (st : CktState),
       (measure_Z_basis cfg r q p st).1 = st.acc.getD q false ∧
       (measure_X_basis cfg r q p st).1 = st.acc.getD (q + cfg.numAll) false) := by
  have hneg : (-1 : ℚ) ≤ 0 := by norm_num
  refine ⟨fun {r1 r2} h1 h2 st => ?_, fun {r} hr {p} hp op st => ?_,
    fun {r} hr {p} hp q st => ?_⟩
  · unfold resyncCycle
    rw [syndrome_extraction_irrel cfg h1 h2 none hneg
      (scale_mul_nonpos hs2 hneg) (scale_mul_nonpos hsp hneg)
      (scale_mul_nonpos hsm hneg)]
  · rw [runOp_noiseless cfg hr hp (scale_mul_nonpos hs2 hp)
      (scale_mul_nonpos hs1 hp) (scale_mul_nonpos hsp hp)
      (scale_mul_nonpos hsm hp)]
  · rw [measure_Z_basis_nonpos cfg hr (scale_mul_nonpos hsm hp) q,
      measure_X_basis_nonpos cfg hr (scale_mul_nonpos hsm hp) q]
    exact ⟨rfl, rfl⟩

/-- Witness for C2 at the five-qubit configuration: the resynchronization
cycle from a concrete state agrees under the all-zero and all-one-half
streams, and a concrete gate at rate -1 acts noiselessly. -/
theorem resync_cycle_error_free_witness :
    (0 ≤ fiveQubitChaoCfg.sTwo ∧ 0 ≤ fiveQubitChaoCfg.sSingle ∧
     0 ≤ fiveQubitChaoCfg.sPrep ∧ 0 ≤ fiveQubitChaoCfg.sMeas) ∧
    validStream constZeroStream ∧ validStream constHalfStream ∧
    resyncCycle fiveQubitChaoCfg constZeroStream [] stp0 =
      resyncCycle fiveQubitChaoCfg constHalfStream [] stp0 ∧
    (runOp fiveQubitChaoCfg constZeroStream (-1) (.cnot 0 5 1) cst0).acc =
      noiselessOp fiveQubitChaoCfg (.cnot 0 5 1) cst0.acc ∧
    (measure_Z_basis fiveQubitChaoCfg constZeroStream 5 (-1) cst0).1 =
      cst0.acc.getD 5 false :=
  ⟨⟨by norm_num [fiveQubitChaoCfg], by norm_num [fiveQubitChaoCfg],
    by norm_num [fiveQubitChaoCfg], by norm_num [fiveQubitChaoCfg]⟩,
   validStream_constZero, validStream_constHalf,
   (resync_cycle_error_free fiveQubitChaoCfg []
      (by norm_num [fiveQubitChaoCfg]) (by norm_num [fiveQubitChaoCfg])
      (by norm_num [fiveQubitChaoCfg]) (by norm_num [fiveQubitChaoCfg])).1
     validStream_constZero validStream_constHalf stp0,
   (resync_cycle_error_free fiveQubitChaoCfg []
      (by norm_num [fiveQubitChaoCfg]) (by norm_num [fiveQubitChaoCfg])
      (by norm_num [fiveQubitChaoCfg]) (by norm_num [fiveQubitChaoCfg])).2.1
     validStream_constZero (by norm_num) (.cnot 0 5 1) cst0,
   ((resync_cycle_error_free fiveQubitChaoCfg []
      (by norm_num [fiveQubitChaoCfg]) (by norm_num [fiveQubitChaoCfg])
      (by norm_num [fiveQubitChaoCfg]) (by norm_num [fiveQubitChaoCfg])).2.2
     validStream_constZero (by norm_num) 5 cst0).1⟩

/-- The symplectic inner product (mod 2) of the data-qubit projection of an
accumulator with one logical operator, as computed through the standard
symplectic form `L`. -/
def symplecticInnerData (cfg : CktCfg) (acc : List Bool)
    (op : List ℕ) : ℕ :=
  dotN (pauliAccDataQubits cfg acc) (matVec (LBlock cfg) op) % 2

theorem commutationVector_eq_map (cfg : CktCfg) (ops : List (List ℕ))
    (acc : List Bool) :
    commutationVector cfg ops acc = ops.map (symplecticInnerData cfg acc) :=
  rfl

/-- C3: in every round, writing `mid` for the state after the
resynchronization cycle — if the data-qubit projection of `mid`'s
accumulator commutes (symplectic inner product 0 mod 2) with every logical
operator, the accumulator is restored exactly to its value saved before the
resynchronization; if it anticommutes with at least one logical operator,
the logical-error count for that rate is incremented by one and a fresh
circuit with an all-zero accumulator replaces the old one. -/
theorem logical_error_tracking_branches (cfg : CktCfg) (r : RandStream)
    (tbl : SyndromeLUT) (logical_ops : List (List ℕ)) (j : ℕ)
    (st mid : ProtoState)
    (hmid : resyncCycle cfg r tbl st = .ok mid) :
    ((∀ op ∈ logical_ops, symplecticInnerData cfg mid.ckt.acc op = 0) →
       logical_error_tracking cfg r tbl logical_ops j st =
         .ok { mid with ckt := { mid.ckt with acc := st.ckt.acc } }) ∧
    ((∃ op ∈ logical_ops, symplecticInnerData cfg mid.ckt.acc op ≠ 0) →
       logical_error_tracking cfg r tbl logical_ops j st =
         .ok (create_circuit cfg
           { mid with counts := mid.counts.set j (mid.counts.getD j 0 + 1) })) := by
  constructor
  · intro hall
    have hfalse : (commutationVector cfg logical_ops mid.ckt.acc).any
        (fun c => c != 0) = false := by
      simp only [commutationVector_eq_map, List.any_eq_false]
      intro x hx
      obtain ⟨op, hop, rfl⟩ := List.mem_map.mp hx
      simp [hall op hop]
    unfold logical_error_tracking
    rw [hmid]
    simp [Except.map, hfalse]
  · intro hex
    have htrue : (commutationVector cfg logical_ops mid.ckt.acc).any
        (fun c => c != 0) = true := by
      obtain ⟨op, hop, hne⟩ := hex
      simp only [commutationVector_eq_map, List.any_eq_true]
      exact ⟨_, List.mem_map.mpr ⟨op, hop, rfl⟩, by simpa using hne⟩
    unfold logical_error_tracking
    rw [hmid]
    simp [Except.map, htrue]

/-- The logical operators of the five-qubit code as supplied to the
protocol constructor. -/
def ops5 : List (List ℕ) :=
  [[1, 1, 1, 1, 1, 0, 0, 0, 0, 0], [0, 0, 0, 0, 0, 1, 1, 1, 1, 1]]

/-- A protocol state whose accumulator carries the logical X operator
(X on all five data qubits). -/
def stX : ProtoState :=
  { ckt := { acc := [true, true, true, true, true, false, false, false,
      false, false, false, false, false, false], pos := 0 },
    status := .IDLE, current := none, rec1 := none, rec2 := none,
    counts := [0] }

/-- The state after a fault-free resynchronization cycle from `stp0`. -/
def midClean : ProtoState :=
  { ckt := { acc := zeroAcc fiveQubitChaoCfg, pos := 40 }, status := .IDLE,
    current := some (false, some false),
    rec1 := some [some (false, false), some (false, false),
      some (false, false), some (false, false)],
    rec2 := none, counts := [0] }

/-- The state after a fault-free resynchronization cycle from `stX`. -/
def midX : ProtoState :=
  { midClean with ckt := { acc := stX.ckt.acc, pos := 40 } }

set_option maxRecDepth 100000 in
/-- Witness for C3: a commuting (all-zero) round restores the saved
accumulator; a round carrying the logical X anticommutes with the logical Z
and is counted with a fresh circuit. -/
theorem logical_error_tracking_branches_witness :
    resyncCycle fiveQubitChaoCfg constHalfStream [] stp0 = .ok midClean ∧
    (∀ op ∈ ops5, symplecticInnerData fiveQubitChaoCfg midClean.ckt.acc
      op = 0) ∧
    logical_error_tracking fiveQubitChaoCfg constHalfStream [] ops5 0 stp0 =
      .ok { midClean with ckt := { midClean.ckt with acc := stp0.ckt.acc } } ∧
    resyncCycle fiveQubitChaoCfg constHalfStream [] stX = .ok midX ∧
    (∃ op ∈ ops5, symplecticInnerData fiveQubitChaoCfg midX.ckt.acc
      op ≠ 0) ∧
    logical_error_tracking fiveQubitChaoCfg constHalfStream [] ops5 0 stX =
      .ok (create_circuit fiveQubitChaoCfg
        { midX with counts := midX.counts.set 0 (midX.counts.getD 0 0 + 1) }) :=
  ⟨by decide, by decide,
   (logical_error_tracking_branches fiveQubitChaoCfg constHalfStream []
      ops5 0 stp0 midClean (by decide)).1 (by decide),
   by decide, by decide,
   (logical_error_tracking_branches fiveQubitChaoCfg constHalfStream []
      ops5 0 stX midX (by decide)).2 (by decide)⟩
